import Mathlib

/-!
# UEGitPlugin: the Git source-control module and its changelist value objects

A shallow embedding of `GitSourceControlModule.cpp`, `GitSourceControlChangelist.h` and
`GitSourceControlChangelistState.{h,cpp}`.

The plugin is glue code around the host editor.  Host objects the module mutates (delegate
lists, the modular-feature registry, the menu builder) are explicit state; host calls whose
outcome the module only reads (configuration, process launch, package loading) are fields of
an environment record; every side effect the module triggers is appended to a trace.
-/

namespace UEGitPlugin

/-! ## Host strings and names -/

/-- Host string type `FString`. -/
abbrev FString := String

/-- Host name type `FName`. -/
abbrev FName := String

/-- Host comparison of `FString` (`operator==`) and of `FName`: both ignore ASCII case. -/
def IgnoreCaseEquals (A B : String) : Bool :=
  A.data.map Char.toUpper == B.data.map Char.toUpper

/-- `FString::IsEmpty`. -/
def FString.IsEmpty (S : FString) : Bool := S.length == 0

/-- Ordered-argument formatting shared by `FString::Format` and `FText::Format`: a placeholder
`{d}` with a single digit `d` is replaced by argument number `d` (left untouched when there is
no such argument); all patterns of this module use `{0}` and `{1}` only. -/
def FormatOrdered (Args : List FString) : List Char → List Char
  | c :: d :: e :: rest =>
    if c == '\x7b' && d.isDigit && e == '\x7d' then
      (match Args.get? (d.toNat - 48) with
        | some a => a.data
        | none => [c, d, e]) ++ FormatOrdered Args rest
    else c :: FormatOrdered Args (d :: e :: rest)
  | cs => cs

/-- `FString::Format(Pattern, {Args...})`. -/
def FString.Format (Pattern : FString) (Args : List FString) : FString :=
  String.mk (FormatOrdered Args Pattern.data)

/-- Host display text `FText`, reduced to the string it shows in the source culture. -/
structure FText where
  SourceString : FString
  deriving DecidableEq, Repr

/-- `FText::FromString`. -/
def FText.FromString (S : FString) : FText := ⟨S⟩

/-- `LOCTEXT(Key, Literal)` in the source culture. -/
def LOCTEXT (_Key : String) (Literal : String) : FText := ⟨Literal⟩

/-- `FText::Format(Pattern, Args...)`. -/
def FText.Format (Pattern : FText) (Args : List FText) : FText :=
  ⟨FString.Format Pattern.SourceString (Args.map FText.SourceString)⟩

/-! ## Engine version -/

/-- Engine version the plugin is compiled against. -/
structure FEngineVersion where
  Major : Nat
  Minor : Nat
  Patch : Nat
  deriving DecidableEq, Repr

/-- Preprocessor test `UE_VERSION_OLDER_THAN(Major, Minor, Patch)`. -/
def UE_VERSION_OLDER_THAN (V : FEngineVersion) (Major Minor Patch : Nat) : Bool :=
  decide (V.Major < Major) ||
    (V.Major == Major && (decide (V.Minor < Minor) || (V.Minor == Minor && decide (V.Patch < Patch))))

/-! ## Command workers -/

/-- Worker classes of `GitSourceControlOperations.h` named by `StartupModule`. -/
inductive EWorkerClass
  | FGitConnectWorker
  | FGitCheckOutWorker
  | FGitUpdateStatusWorker
  | FGitMarkForAddWorker
  | FGitDeleteWorker
  | FGitRevertWorker
  | FGitSyncWorker
  | FGitFetchWorker
  | FGitCheckInWorker
  | FGitCopyWorker
  | FGitResolveWorker
  | FGitMoveToChangelistWorker
  | FGitUpdateStagingWorker
  deriving DecidableEq, Repr

/-- C++ class name of a worker class. -/
def EWorkerClass.ClassName : EWorkerClass → String
  | .FGitConnectWorker => "FGitConnectWorker"
  | .FGitCheckOutWorker => "FGitCheckOutWorker"
  | .FGitUpdateStatusWorker => "FGitUpdateStatusWorker"
  | .FGitMarkForAddWorker => "FGitMarkForAddWorker"
  | .FGitDeleteWorker => "FGitDeleteWorker"
  | .FGitRevertWorker => "FGitRevertWorker"
  | .FGitSyncWorker => "FGitSyncWorker"
  | .FGitFetchWorker => "FGitFetchWorker"
  | .FGitCheckInWorker => "FGitCheckInWorker"
  | .FGitCopyWorker => "FGitCopyWorker"
  | .FGitResolveWorker => "FGitResolveWorker"
  | .FGitMoveToChangelistWorker => "FGitMoveToChangelistWorker"
  | .FGitUpdateStagingWorker => "FGitUpdateStagingWorker"

/-- A worker object, identified by its dynamic class. -/
structure IGitSourceControlWorker where
  Class : EWorkerClass
  deriving DecidableEq, Repr

/-- Template `CreateWorker<Type>()`: `MakeShareable( new Type() )`. -/
def CreateWorker (T : EWorkerClass) : IGitSourceControlWorker := ⟨T⟩

/-- Delegate `FGetGitSourceControlWorker`, bound by `CreateStatic( &CreateWorker<Type> )`. -/
structure FGetGitSourceControlWorker where
  BoundType : EWorkerClass
  deriving DecidableEq, Repr

/-- `FGetGitSourceControlWorker::CreateStatic( &CreateWorker<Type> )`. -/
def FGetGitSourceControlWorker.CreateStatic (T : EWorkerClass) : FGetGitSourceControlWorker := ⟨T⟩

/-- Invoking the delegate runs the bound `CreateWorker<Type>`. -/
def FGetGitSourceControlWorker.Execute (D : FGetGitSourceControlWorker) : IGitSourceControlWorker :=
  CreateWorker D.BoundType

/-- Host `TMap::Add` on a name-keyed map: the value of an existing key is replaced. -/
def TMapAdd {V : Type} (M : List (FName × V)) (K : FName) (Val : V) : List (FName × V) :=
  match M with
  | [] => [(K, Val)]
  | (K0, V0) :: Rest =>
    if IgnoreCaseEquals K0 K then (K, Val) :: Rest else (K0, V0) :: TMapAdd Rest K Val

/-- Host `TMap::Find` on a name-keyed map. -/
def TMapFind {V : Type} (M : List (FName × V)) (K : FName) : Option V :=
  match M with
  | [] => none
  | (K0, V0) :: Rest => if IgnoreCaseEquals K0 K then some V0 else TMapFind Rest K

/-- The members of `FGitSourceControlProvider` the module reads or writes. -/
structure FGitSourceControlProvider where
  WorkersMap : List (FName × FGetGitSourceControlWorker)
  TicksUntilNextForcedUpdate : Int
  StatusBranchNames : List FString
  PathToRepositoryRoot : FString
  deriving DecidableEq, Repr

/-- Modelled from the spec: `FGitSourceControlProvider::RegisterWorker` is not among the source
files.  The glossary calls a worker "a handler object registered against a named operation
(e.g., "CheckOut") that the provider dispatches to", so the provider keeps a map from operation
name to worker factory and registering stores the factory under the name. -/
def FGitSourceControlProvider.RegisterWorker (P : FGitSourceControlProvider) (InName : FName)
    (InDelegate : FGetGitSourceControlWorker) : FGitSourceControlProvider :=
  { P with WorkersMap := TMapAdd P.WorkersMap InName InDelegate }

/-- Modelled from the spec: the provider "dispatches to" the worker registered under a name;
the lookup that precedes the dispatch. -/
def FGitSourceControlProvider.FindWorker (P : FGitSourceControlProvider) (InName : FName) :
    Option FGetGitSourceControlWorker :=
  TMapFind P.WorkersMap InName

/-- `GetStatusBranchNames`. -/
def FGitSourceControlProvider.GetStatusBranchNames (P : FGitSourceControlProvider) : List FString :=
  P.StatusBranchNames

/-- `GetPathToRepositoryRoot`. -/
def FGitSourceControlProvider.GetPathToRepositoryRoot (P : FGitSourceControlProvider) : FString :=
  P.PathToRepositoryRoot

/-! ## Host delegates and registries -/

/-- Host `FDelegateHandle`: a 64-bit identifier, 0 being the invalid handle. -/
structure FDelegateHandle where
  ID : Nat
  deriving DecidableEq, Repr

/-- `FDelegateHandle::IsValid`. -/
def FDelegateHandle.IsValid (H : FDelegateHandle) : Bool := H.ID != 0

/-- Host `FDelegateHandle::GenerateNewID` on the global counter `GNextID`: the counter is
incremented (64-bit wrap-around) and incremented once more when it wrapped to 0. -/
def GenerateNewID (GNextID : Nat) : Nat :=
  let Result := (GNextID + 1) % 2 ^ 64
  if Result == 0 then (Result + 1) % 2 ^ 64 else Result

/-- What a delegate in a host list is bound to: one of the callables this module binds, or
something bound by another party. -/
inductive ECallable
  | OnFilterChangedLambda
  | OnSearchBoxChangedLambda
  | OnAssetSelectionChangedLambda
  | OnAssetPathChangedLambda
  | OnExtendContentBrowserAssetSelectionMenu
  | Foreign (Id : Nat)
  deriving DecidableEq, Repr

/-- A bound delegate instance with its handle. -/
structure FDelegateInstance where
  Handle : FDelegateHandle
  Bound : ECallable
  deriving DecidableEq, Repr

/-- `GetHandle` of a delegate. -/
def FDelegateInstance.GetHandle (D : FDelegateInstance) : FDelegateHandle := D.Handle

/-- Host multicast delegate `Remove(Handle)`: for a valid handle the first delegate carrying it
is removed. -/
def MulticastRemove (L : List FDelegateInstance) (H : FDelegateHandle) : List FDelegateInstance :=
  if H.IsValid then
    match L with
    | [] => []
    | D :: Rest => if D.GetHandle == H then Rest else D :: MulticastRemove Rest H
  else L

/-- Host `TArray::RemoveAll(Predicate)`. -/
def TArrayRemoveAll {A : Type} (L : List A) (Predicate : A → Bool) : List A :=
  L.filter (fun X => !Predicate X)

/-- The delegate lists of `FContentBrowserModule` the module touches. -/
structure FContentBrowserModule where
  OnFilterChanged : List FDelegateInstance
  OnSearchBoxChanged : List FDelegateInstance
  OnAssetSelectionChanged : List FDelegateInstance
  OnAssetPathChanged : List FDelegateInstance
  AllAssetViewContextMenuExtenders : List FDelegateInstance
  deriving DecidableEq, Repr

/-- Pointer identity of a modular feature: this module's `GitSourceControlProvider` member, or
a feature object of another party. -/
inductive EModularFeature
  | GitSourceControlProvider
  | Foreign (Id : Nat)
  deriving DecidableEq, Repr

/-- Equality of entries of the host's modular-feature multimap. -/
def FeaturePairEquals (A B : FName × EModularFeature) : Bool :=
  IgnoreCaseEquals A.1 B.1 && A.2 == B.2

/-- Host `TMultiMap::AddUnique`. -/
def TMultiMapAddUnique (M : List (FName × EModularFeature)) (K : FName) (F : EModularFeature) :
    List (FName × EModularFeature) :=
  if M.any (fun E => FeaturePairEquals E (K, F)) then M else M ++ [(K, F)]

/-- Host `TMultiMap::RemoveSingle`. -/
def TMultiMapRemoveSingle (M : List (FName × EModularFeature)) (K : FName) (F : EModularFeature) :
    List (FName × EModularFeature) :=
  match M with
  | [] => []
  | E :: Rest => if FeaturePairEquals E (K, F) then Rest else E :: TMultiMapRemoveSingle Rest K F

/-! ## Host objects of the asset-diff pipeline -/

/-- Host `UObject`, by identity. -/
structure UObject where
  Id : Nat
  deriving DecidableEq, Repr

/-- Host `UPackage`, by identity. -/
structure UPackage where
  Id : Nat
  deriving DecidableEq, Repr

/-- Host `FAssetData`: the two names the module reads. -/
structure FAssetData where
  PackageName : FName
  AssetName : FName
  deriving DecidableEq, Repr

/-- Host `FRevisionInfo`. -/
structure FRevisionInfo where
  Revision : FString
  Changelist : Int
  Date : Int
  deriving DecidableEq, Repr

/-- Default-constructed `FRevisionInfo`. -/
def FRevisionInfo.Default : FRevisionInfo := ⟨"", -1, 0⟩

/-- What the module reads of an `ISourceControlState`. -/
structure FSourceControlState where
  bIsSourceControlled : Bool
  deriving DecidableEq, Repr

/-- `IsSourceControlled`. -/
def FSourceControlState.IsSourceControlled (S : FSourceControlState) : Bool := S.bIsSourceControlled

/-- What the module reads of an `ISourceControlRevision`: the outcome of `Get(TempFileName)`
(the temp file name on success) and the three accessors. -/
structure FSourceControlRevision where
  GetResult : Option FString
  CheckInIdentifier : Int
  Date : Int
  Revision : FString
  deriving DecidableEq, Repr

/-- `GetCheckInIdentifier`. -/
def FSourceControlRevision.GetCheckInIdentifier (R : FSourceControlRevision) : Int := R.CheckInIdentifier

/-- `GetDate`. -/
def FSourceControlRevision.GetDate (R : FSourceControlRevision) : Int := R.Date

/-- `GetRevision`. -/
def FSourceControlRevision.GetRevision (R : FSourceControlRevision) : FString := R.Revision

/-! ## Environment, trace and world -/

/-- Outcome of host `FPlatformProcess::ExecProcess`. -/
structure FExecResult where
  bLaunchedProcess : Bool
  ReturnCode : Int
  StdErr : FString
  deriving DecidableEq, Repr

/-- Log verbosity levels of the host. -/
inductive ELogVerbosity
  | Fatal
  | Error
  | Warning
  | Display
  | Log
  deriving DecidableEq, Repr

/-- A printf argument of `UE_LOG`. -/
inductive FLogArg
  | Str (S : FString)
  | Num (N : Int)
  deriving DecidableEq, Repr

/-- Side effects the module triggers, in program order. -/
inductive Event
  | LoadSettings
  | SaveSettings
  | ExecProcess (URL : FString) (Params : FString)
  | UE_LOG (Category : String) (Verbosity : ELogVerbosity) (Format : String) (Args : List FLogArg)
  | CheckFailed (Expr : String)
  | LoadModule (Name : FName)
  | ProviderRegisterWorker (InName : FName) (Worker : EWorkerClass)
  | ProviderClose
  | ProviderSetLastErrors (InErrors : List FText)
  | GitSourceControlUtils_GetOriginRevisionOnBranch (PathToGitBinary : FString)
      (PathToRepositoryRoot : FString) (RelativeFileName : FString) (BranchName : FString)
  | LoadPackage (FileName : FString)
  | DiffAssets (OldObject : UObject) (NewObject : UObject) (OldRevision : FRevisionInfo)
      (NewRevision : FRevisionInfo)
  deriving DecidableEq, Repr

/-- Outcomes of the host calls (and of the calls into files of the plugin that are not part of
this development) whose results the module only reads. -/
structure Env where
  EngineVersion : FEngineVersion
  GConfig_GetString : FString → FString → Option FString
  ExecProcess : FString → FString → FExecResult
  bIsUnattended : Bool
  bIsRunningCommandlet : Bool
  bModuleLoaded : Bool
  AppStyleSetName : FName
  EditorStyleSetName : FName
  GetAsset : FAssetData → Option UObject
  PackageFilename : FString → FString
  GetState : FString → Option FSourceControlState
  DoesPackageExist : FString → Option FString
  GetOriginRevisionOnBranch : FString → FString → FString → FString → Option FSourceControlRevision
  LoadPackage : FString → Option UPackage
  FindObject : UPackage → FString → Option UObject

/-- What the module reads of `FGitSourceControlSettings`. -/
structure FGitSourceControlSettings where
  BinaryPath : FString
  deriving DecidableEq, Repr

/-- `GetBinaryPath`. -/
def FGitSourceControlSettings.GetBinaryPath (S : FGitSourceControlSettings) : FString := S.BinaryPath

/-- Members of `FGitSourceControlModule`. -/
structure FGitSourceControlModule where
  GitSourceControlProvider : FGitSourceControlProvider
  GitSourceControlSettings : FGitSourceControlSettings
  CbdHandle_OnFilterChanged : FDelegateHandle
  CbdHandle_OnSearchBoxChanged : FDelegateHandle
  CbdHandle_OnAssetSelectionChanged : FDelegateHandle
  CbdHandle_OnAssetPathChanged : FDelegateHandle
  CbdHandle_OnExtendAssetSelectionMenu : FDelegateHandle
  deriving DecidableEq, Repr

/-- The body of a callable bound by `StartupModule`, run on the module's provider: each of the
four lambdas of lines 112-115 ignores the event's arguments and assigns
`TicksUntilNextForcedUpdate`; the menu extender and callables of other parties leave the
provider alone. -/
def ECallable.Execute (C : ECallable) (P : FGitSourceControlProvider) : FGitSourceControlProvider :=
  match C with
  | .OnFilterChangedLambda => { P with TicksUntilNextForcedUpdate := 2 }
  | .OnSearchBoxChangedLambda => { P with TicksUntilNextForcedUpdate := 1 }
  | .OnAssetSelectionChangedLambda => { P with TicksUntilNextForcedUpdate := 1 }
  | .OnAssetPathChangedLambda => { P with TicksUntilNextForcedUpdate := 2 }
  | .OnExtendContentBrowserAssetSelectionMenu => P
  | .Foreign _ => P

/-- The module together with the host state it mutates and the trace of side effects. -/
structure World where
  Module : FGitSourceControlModule
  GNextID : Nat
  ContentBrowser : FContentBrowserModule
  ModularFeatures : List (FName × EModularFeature)
  Trace : List Event
  deriving DecidableEq, Repr

/-- How a call ends: it returns, or the process is terminated inside it (a Fatal log, a failed
`check`, an array index out of range).  Either way the world reached is kept. -/
inductive Outcome
  | Returned (W : World)
  | Aborted (W : World)
  deriving DecidableEq, Repr

/-- The world in which the call ended. -/
def Outcome.World : Outcome → World
  | .Returned W => W
  | .Aborted W => W

/-- Whether the process was terminated inside the call. -/
def Outcome.bAborted : Outcome → Bool
  | .Returned _ => false
  | .Aborted _ => true

/-- Append an event to the trace. -/
def World.Emit (W : World) (E : Event) : World :=
  { W with Trace := W.Trace ++ [E] }

/-- The events appended to the trace between two worlds. -/
def EventsSince (Before After : World) : List Event :=
  After.Trace.drop Before.Trace.length

/-- `UE_LOG(Category, Verbosity, Format, Args...)`: the log line is recorded in the trace. -/
def World.UE_LOG (W : World) (Category : String) (Verbosity : ELogVerbosity) (Format : String)
    (Args : List FLogArg) : World :=
  W.Emit (Event.UE_LOG Category Verbosity Format Args)

/-- `GitSourceControlProvider.RegisterWorker( Name, Delegate )` on the module's provider; the
call is also recorded in the trace. -/
def World.RegisterWorker (W : World) (InName : FName) (InDelegate : FGetGitSourceControlWorker) :
    World :=
  { W with
    Module := { W.Module with
      GitSourceControlProvider := W.Module.GitSourceControlProvider.RegisterWorker InName InDelegate },
    Trace := W.Trace ++ [Event.ProviderRegisterWorker InName InDelegate.BoundType] }

/-- The `(name, worker class)` arguments of the `RegisterWorker` calls in a trace, in order. -/
def RegisterWorkerCalls (Events : List Event) : List (FName × EWorkerClass) :=
  Events.filterMap (fun E =>
    match E with
    | Event.ProviderRegisterWorker InName Worker => some (InName, Worker)
    | _ => none)

/-- The `(executable, parameters)` arguments of the direct process launches in a trace. -/
def ProcessLaunches (Events : List Event) : List (FString × FString) :=
  Events.filterMap (fun E =>
    match E with
    | Event.ExecProcess URL Params => some (URL, Params)
    | _ => none)

/-- Whether an event is a log line of Fatal verbosity. -/
def Event.IsFatalLog : Event → Bool
  | Event.UE_LOG _ Verbosity _ _ => Verbosity == ELogVerbosity.Fatal
  | _ => false

/-- The `DiffAssets` calls in a trace. -/
def DiffAssetsCalls (Events : List Event) : List (UObject × UObject × FRevisionInfo × FRevisionInfo) :=
  Events.filterMap (fun E =>
    match E with
    | Event.DiffAssets OldObject NewObject OldRevision NewRevision =>
      some (OldObject, NewObject, OldRevision, NewRevision)
    | _ => none)

/-- `IModularFeatures::Get().RegisterModularFeature( Type, Feature )`. -/
def World.RegisterModularFeature (W : World) (FeatureType : FName) (F : EModularFeature) : World :=
  { W with ModularFeatures := TMultiMapAddUnique W.ModularFeatures FeatureType F }

/-- `IModularFeatures::Get().UnregisterModularFeature( Type, Feature )`. -/
def World.UnregisterModularFeature (W : World) (FeatureType : FName) (F : EModularFeature) : World :=
  { W with ModularFeatures := TMultiMapRemoveSingle W.ModularFeatures FeatureType F }

/-- `NAME_SourceControl`. -/
def NAME_SourceControl : FName := "SourceControl"

/-- `NAME_ContentBrowser`. -/
def NAME_ContentBrowser : FName := "ContentBrowser"

/-- Host `TArray::Last`, which fails on an empty array. -/
def TArrayLast {A : Type} (L : List A) : Option A := L.getLast?

/-- A delegate bound now: it carries the next handle of the host counter. -/
def NewDelegate (GNextID : Nat) (C : ECallable) : FDelegateInstance :=
  ⟨⟨GenerateNewID GNextID⟩, C⟩

/-- Line 112: `CbdHandle_OnFilterChanged = ...GetOnFilterChanged().AddLambda( ... )`; the new
delegate is appended to the host list and its handle kept. -/
def World.AddLambda_OnFilterChanged (W : World) : World :=
  { W with
    GNextID := GenerateNewID W.GNextID
    ContentBrowser := { W.ContentBrowser with
      OnFilterChanged :=
        W.ContentBrowser.OnFilterChanged ++ [NewDelegate W.GNextID .OnFilterChangedLambda] }
    Module := { W.Module with
      CbdHandle_OnFilterChanged := (NewDelegate W.GNextID .OnFilterChangedLambda).GetHandle } }

/-- Line 113: `CbdHandle_OnSearchBoxChanged = ...GetOnSearchBoxChanged().AddLambda( ... )`. -/
def World.AddLambda_OnSearchBoxChanged (W : World) : World :=
  { W with
    GNextID := GenerateNewID W.GNextID
    ContentBrowser := { W.ContentBrowser with
      OnSearchBoxChanged :=
        W.ContentBrowser.OnSearchBoxChanged ++ [NewDelegate W.GNextID .OnSearchBoxChangedLambda] }
    Module := { W.Module with
      CbdHandle_OnSearchBoxChanged := (NewDelegate W.GNextID .OnSearchBoxChangedLambda).GetHandle } }

/-- Line 114: `CbdHandle_OnAssetSelectionChanged =
...GetOnAssetSelectionChanged().AddLambda( ... )`. -/
def World.AddLambda_OnAssetSelectionChanged (W : World) : World :=
  { W with
    GNextID := GenerateNewID W.GNextID
    ContentBrowser := { W.ContentBrowser with
      OnAssetSelectionChanged :=
        W.ContentBrowser.OnAssetSelectionChanged ++
          [NewDelegate W.GNextID .OnAssetSelectionChangedLambda] }
    Module := { W.Module with
      CbdHandle_OnAssetSelectionChanged :=
        (NewDelegate W.GNextID .OnAssetSelectionChangedLambda).GetHandle } }

/-- Line 115: `CbdHandle_OnAssetPathChanged = ...GetOnAssetPathChanged().AddLambda( ... )`. -/
def World.AddLambda_OnAssetPathChanged (W : World) : World :=
  { W with
    GNextID := GenerateNewID W.GNextID
    ContentBrowser := { W.ContentBrowser with
      OnAssetPathChanged :=
        W.ContentBrowser.OnAssetPathChanged ++ [NewDelegate W.GNextID .OnAssetPathChangedLambda] }
    Module := { W.Module with
      CbdHandle_OnAssetPathChanged := (NewDelegate W.GNextID .OnAssetPathChangedLambda).GetHandle } }

/-- Lines 118-120: the extender delegate created by `CreateRaw` is added to the host array and
`CbdHandle_OnExtendAssetSelectionMenu` is set to the handle of the array's last element. -/
def World.Add_OnExtendAssetSelectionMenu (W : World) : Outcome :=
  let CBAssetMenuExtenderDelegates :=
    W.ContentBrowser.AllAssetViewContextMenuExtenders ++
      [NewDelegate W.GNextID .OnExtendContentBrowserAssetSelectionMenu]
  match TArrayLast CBAssetMenuExtenderDelegates with
  | none => .Aborted (W.Emit (Event.CheckFailed "Last"))
  | some D =>
    .Returned { W with
      GNextID := GenerateNewID W.GNextID
      ContentBrowser := { W.ContentBrowser with
        AllAssetViewContextMenuExtenders := CBAssetMenuExtenderDelegates }
      Module := { W.Module with CbdHandle_OnExtendAssetSelectionMenu := D.GetHandle } }

/-- `StartupModule` of `GitSourceControlModule.cpp`. -/
def FGitSourceControlModule.StartupModule (env : Env) (W0 : World) : Outcome :=
  -- Register our operations
  let W := W0.RegisterWorker "Connect" (.CreateStatic .FGitConnectWorker)
  let W := W.RegisterWorker "CheckOut" (.CreateStatic .FGitCheckOutWorker)
  let W := W.RegisterWorker "UpdateStatus" (.CreateStatic .FGitUpdateStatusWorker)
  let W := W.RegisterWorker "MarkForAdd" (.CreateStatic .FGitMarkForAddWorker)
  let W := W.RegisterWorker "Delete" (.CreateStatic .FGitDeleteWorker)
  let W := W.RegisterWorker "Revert" (.CreateStatic .FGitRevertWorker)
  let W := W.RegisterWorker "Sync" (.CreateStatic .FGitSyncWorker)
  let W := W.RegisterWorker "Fetch" (.CreateStatic .FGitFetchWorker)
  let W := W.RegisterWorker "CheckIn" (.CreateStatic .FGitCheckInWorker)
  let W := W.RegisterWorker "Copy" (.CreateStatic .FGitCopyWorker)
  let W := W.RegisterWorker "Resolve" (.CreateStatic .FGitResolveWorker)
  let W := W.RegisterWorker "MoveToChangelist" (.CreateStatic .FGitMoveToChangelistWorker)
  let W := W.RegisterWorker "UpdateChangelistsStatus" (.CreateStatic .FGitUpdateStagingWorker)
  -- load our settings
  let W := W.Emit Event.LoadSettings
  -- If configured, do a check if the current user has permissions to access a specified repository.
  let RequiredRepositoryAccessURL : FString :=
    (env.GConfig_GetString "GitSourceControl" "RequiredAccessRepositoryURL").getD ""
  let RequiredRepositoryAccessBranchName : FString :=
    (env.GConfig_GetString "GitSourceControl" "RequiredAccessRepositoryBranchName").getD ""
  let Checked : Outcome :=
    if !FString.IsEmpty RequiredRepositoryAccessURL then
      let BranchName : FString :=
        if FString.IsEmpty RequiredRepositoryAccessBranchName then "main"
        else RequiredRepositoryAccessBranchName
      let Params := FString.Format "ls-remote --exit-code {0} {1}" [RequiredRepositoryAccessURL, BranchName]
      let R := env.ExecProcess "git" Params
      let W1 := W.Emit (Event.ExecProcess "git" Params)
      if !R.bLaunchedProcess then
        .Aborted (W1.UE_LOG "LogSourceControl" .Fatal "Could not launch git: %s" [.Str R.StdErr])
      else if R.ReturnCode != 0 then
        let StdErr : FString := if FString.IsEmpty R.StdErr then "Branch not found" else R.StdErr
        .Aborted (W1.UE_LOG "LogSourceControl" .Fatal
          "Could access branch %s on required repository %s(%d): %s"
          [.Str BranchName, .Str RequiredRepositoryAccessURL, .Num R.ReturnCode, .Str StdErr])
      else .Returned W1
    else .Returned W
  match Checked with
  | .Aborted WA => .Aborted WA
  | .Returned W =>
    -- Bind our revision control provider to the editor
    let W := W.RegisterModularFeature NAME_SourceControl .GitSourceControlProvider
    let W := W.Emit (Event.LoadModule NAME_ContentBrowser)
    let W :=
      if !UE_VERSION_OLDER_THAN env.EngineVersion 5 0 0 then
        -- Register ContentBrowserDelegate Handles for UE5 EA
        let W := W.AddLambda_OnFilterChanged
        let W := W.AddLambda_OnSearchBoxChanged
        let W := W.AddLambda_OnAssetSelectionChanged
        W.AddLambda_OnAssetPathChanged
      else W
    W.Add_OnExtendAssetSelectionMenu

/-- `ShutdownModule` of `GitSourceControlModule.cpp`. -/
def FGitSourceControlModule.ShutdownModule (env : Env) (W0 : World) : World :=
  -- shut down the provider, as this module is going away
  let W := W0.Emit Event.ProviderClose
  -- unbind provider from editor
  let W := W.UnregisterModularFeature NAME_SourceControl .GitSourceControlProvider
  -- Unregister ContentBrowserDelegate Handles
  let W :=
    if !UE_VERSION_OLDER_THAN env.EngineVersion 5 0 0 then
      { W with ContentBrowser := { W.ContentBrowser with
          OnFilterChanged :=
            MulticastRemove W.ContentBrowser.OnFilterChanged W.Module.CbdHandle_OnFilterChanged,
          OnSearchBoxChanged :=
            MulticastRemove W.ContentBrowser.OnSearchBoxChanged W.Module.CbdHandle_OnSearchBoxChanged,
          OnAssetSelectionChanged :=
            MulticastRemove W.ContentBrowser.OnAssetSelectionChanged
              W.Module.CbdHandle_OnAssetSelectionChanged,
          OnAssetPathChanged :=
            MulticastRemove W.ContentBrowser.OnAssetPathChanged W.Module.CbdHandle_OnAssetPathChanged } }
    else W
  { W with ContentBrowser := { W.ContentBrowser with
      AllAssetViewContextMenuExtenders :=
        TArrayRemoveAll W.ContentBrowser.AllAssetViewContextMenuExtenders
          (fun Delegate => Delegate.GetHandle == W.Module.CbdHandle_OnExtendAssetSelectionMenu) } }

/-- `SaveSettings` of `GitSourceControlModule.cpp`. -/
def FGitSourceControlModule.SaveSettings (env : Env) (W : World) : World :=
  if env.bIsUnattended || env.bIsRunningCommandlet then W
  else W.Emit Event.SaveSettings

/-- `SetLastErrors` of `GitSourceControlModule.cpp`; `env.bModuleLoaded` is whether
`GetModulePtr` finds the module. -/
def FGitSourceControlModule.SetLastErrors (env : Env) (W : World) (InErrors : List FText) : World :=
  if env.bModuleLoaded then W.Emit (Event.ProviderSetLastErrors InErrors) else W

/-! ## Content-browser menu -/

/-- The bound member function and payload of an `FExecuteAction` created by this module. -/
inductive FExecuteAction
  | DiffAssetAgainstGitOriginBranch (SelectedAssets : List FAssetData) (BranchName : FString)
  deriving DecidableEq, Repr

/-- Host `FSlateIcon`. -/
structure FSlateIcon where
  StyleSetName : FName
  StyleName : FName
  deriving DecidableEq, Repr

/-- One `AddMenuEntry` call on the menu builder. -/
structure FMenuEntry where
  Label : FText
  ToolTip : FText
  Icon : FSlateIcon
  Action : FExecuteAction
  deriving DecidableEq, Repr

/-- Host `FMenuBuilder`: the entries added so far. -/
structure FMenuBuilder where
  Entries : List FMenuEntry
  deriving DecidableEq, Repr

/-- `MenuBuilder.AddMenuEntry( Label, ToolTip, Icon, Action )`. -/
def FMenuBuilder.AddMenuEntry (B : FMenuBuilder) (Label ToolTip : FText) (Icon : FSlateIcon)
    (Action : FExecuteAction) : FMenuBuilder :=
  ⟨B.Entries ++ [FMenuEntry.mk Label ToolTip Icon Action]⟩

/-- Host `EExtensionHook::Position`. -/
inductive EExtensionHook
  | Before
  | After
  | First
  deriving DecidableEq, Repr

/-- The bound member function and payload of an `FMenuExtensionDelegate` created by this module. -/
inductive FMenuExtensionDelegate
  | CreateGitContentBrowserAssetMenu (SelectedAssets : List FAssetData)
  deriving DecidableEq, Repr

/-- One `AddMenuExtension` call on an extender; `bCommandList` is false for `nullptr`. -/
structure FMenuExtension where
  ExtensionHook : FName
  HookPosition : EExtensionHook
  bCommandList : Bool
  MenuExtensionDelegate : FMenuExtensionDelegate
  deriving DecidableEq, Repr

/-- Host `FExtender`. -/
structure FExtender where
  MenuExtensions : List FMenuExtension
  deriving DecidableEq, Repr

/-- `OnExtendContentBrowserAssetSelectionMenu` of `GitSourceControlModule.cpp`. -/
def FGitSourceControlModule.OnExtendContentBrowserAssetSelectionMenu
    (SelectedAssets : List FAssetData) : FExtender :=
  let Extender : FExtender := ⟨[]⟩
  ⟨Extender.MenuExtensions ++
    [FMenuExtension.mk "AssetSourceControlActions" EExtensionHook.After false
      (FMenuExtensionDelegate.CreateGitContentBrowserAssetMenu SelectedAssets)]⟩

/-- `CreateGitContentBrowserAssetMenu` of `GitSourceControlModule.cpp`.  `Module` is the module
returned by `FGitSourceControlModule::Get()`.  The result is `none` when `StatusBranchNames[0]`
is out of range. -/
def FGitSourceControlModule.CreateGitContentBrowserAssetMenu (env : Env)
    (Module : FGitSourceControlModule) (MenuBuilder : FMenuBuilder)
    (SelectedAssets : List FAssetData) : Option FMenuBuilder :=
  if Module.GitSourceControlProvider.GetStatusBranchNames.length == 0 then
    some MenuBuilder
  else
    let StatusBranchNames := Module.GitSourceControlProvider.GetStatusBranchNames
    match StatusBranchNames.get? 0 with
    | none => none
    | some BranchName =>
      some (MenuBuilder.AddMenuEntry
        (FText.Format (LOCTEXT "StatusBranchDiff" "Diff against status branch")
          [FText.FromString BranchName])
        (FText.Format
          (LOCTEXT "StatusBranchDiffDesc" "Compare this asset to the latest status branch version")
          [FText.FromString BranchName])
        (if !UE_VERSION_OLDER_THAN env.EngineVersion 5 1 0 then
          FSlateIcon.mk env.AppStyleSetName "SourceControl.Actions.Diff"
        else FSlateIcon.mk env.EditorStyleSetName "SourceControl.Actions.Diff")
        (FExecuteAction.DiffAssetAgainstGitOriginBranch SelectedAssets BranchName))

/-! ## Asset diff -/

/-- `DiffAgainstOriginBranch` of `GitSourceControlModule.cpp`; `InObject` is `none` for a null
pointer.  The two `GetModuleChecked` calls name modules that are loaded whenever the editor runs
this function. -/
def FGitSourceControlModule.DiffAgainstOriginBranch (env : Env) (W : World)
    (InObject : Option UObject) (InPackagePath InPackageName BranchName : FString) : Outcome :=
  match InObject with
  | none => .Aborted (W.Emit (Event.CheckFailed "InObject"))
  | some Object =>
    let PathToGitBinary := W.Module.GitSourceControlSettings.GetBinaryPath
    let PathToRepositoryRoot := W.Module.GitSourceControlProvider.GetPathToRepositoryRoot
    -- Get the SCC state
    match env.GetState (env.PackageFilename InPackagePath) with
    | none => .Returned W
    | some SourceControlState =>
      -- If we have an asset and its in SCC..
      if SourceControlState.IsSourceControlled then
        -- Get the file name of package
        match env.DoesPackageExist InPackagePath with
        | none => .Returned W
        | some RelativeFileName =>
          let W := W.Emit (Event.GitSourceControlUtils_GetOriginRevisionOnBranch PathToGitBinary
            PathToRepositoryRoot RelativeFileName BranchName)
          match env.GetOriginRevisionOnBranch PathToGitBinary PathToRepositoryRoot
              RelativeFileName BranchName with
          | none => .Aborted (W.Emit (Event.CheckFailed "Revision.IsValid()"))
          | some Revision =>
            match Revision.GetResult with
            | none => .Returned W
            | some TempFileName =>
              -- Try and load that package
              let W := W.Emit (Event.LoadPackage TempFileName)
              match env.LoadPackage TempFileName with
              | none => .Returned W
              | some TempPackage =>
                -- Grab the old asset from that old package
                match env.FindObject TempPackage InPackageName with
                | none => .Returned W
                | some OldObject =>
                  -- Set the revision information
                  let OldRevision : FRevisionInfo :=
                    { FRevisionInfo.Default with
                      Changelist := Revision.GetCheckInIdentifier
                      Date := Revision.GetDate
                      Revision := Revision.GetRevision }
                  let NewRevision : FRevisionInfo := { FRevisionInfo.Default with Revision := "" }
                  .Returned (W.Emit (Event.DiffAssets OldObject Object OldRevision NewRevision))
      else .Returned W

/-- `DiffAssetAgainstGitOriginBranch` of `GitSourceControlModule.cpp`: the loop over the
selected assets. -/
def FGitSourceControlModule.DiffAssetAgainstGitOriginBranch (env : Env) (W : World)
    (SelectedAssets : List FAssetData) (BranchName : FString) : Outcome :=
  match SelectedAssets with
  | [] => .Returned W
  | AssetData :: Rest =>
    -- Get the actual asset (will load it)
    match env.GetAsset AssetData with
    | some CurrentObject =>
      let PackagePath := AssetData.PackageName
      let PackageName := AssetData.AssetName
      match FGitSourceControlModule.DiffAgainstOriginBranch env W (some CurrentObject) PackagePath
          PackageName BranchName with
      | .Aborted W1 => .Aborted W1
      | .Returned W1 => FGitSourceControlModule.DiffAssetAgainstGitOriginBranch env W1 Rest BranchName
    | none => FGitSourceControlModule.DiffAssetAgainstGitOriginBranch env W Rest BranchName

/-! ## Changelist (`GitSourceControlChangelist.h`) -/

/-- Host `GetTypeHash(const FString&)`: a 32-bit hash that ignores case, folding the upper-cased
characters through the host's CRC table step, which is a parameter here. -/
def GetTypeHash_FString (Step : Nat → Char → Nat) (S : FString) : Nat :=
  (S.data.map Char.toUpper).foldl (fun Hash C => Step Hash C % 2 ^ 32) 0

/-- Members of `FGitSourceControlChangelist`. -/
structure FGitSourceControlChangelist where
  ChangelistName : FString
  bInitialized : Bool
  deriving DecidableEq, Repr

namespace FGitSourceControlChangelist

/-- Default constructor: empty name, `bInitialized = false`. -/
def Default : FGitSourceControlChangelist := ⟨"", false⟩

/-- Constructor `FGitSourceControlChangelist(InChangelistName, bInInitialized)`. -/
def Create (InChangelistName : FString) (bInInitialized : Bool) : FGitSourceControlChangelist :=
  ⟨InChangelistName, bInInitialized⟩

/-- `CanDelete`. -/
def CanDelete (_C : FGitSourceControlChangelist) : Bool := false

/-- `operator==`. -/
def operator_eq (C InOther : FGitSourceControlChangelist) : Bool :=
  IgnoreCaseEquals C.ChangelistName InOther.ChangelistName

/-- `operator!=`. -/
def operator_ne (C InOther : FGitSourceControlChangelist) : Bool :=
  !IgnoreCaseEquals C.ChangelistName InOther.ChangelistName

/-- `IsDefault`, against the static `WorkingChangelist`. -/
def IsDefault (WorkingChangelist C : FGitSourceControlChangelist) : Bool :=
  IgnoreCaseEquals C.ChangelistName WorkingChangelist.ChangelistName

/-- `SetInitialized`. -/
def SetInitialized (C : FGitSourceControlChangelist) : FGitSourceControlChangelist :=
  { C with bInitialized := true }

/-- `IsInitialized`. -/
def IsInitialized (C : FGitSourceControlChangelist) : Bool := C.bInitialized

/-- `Reset`. -/
def Reset (C : FGitSourceControlChangelist) : FGitSourceControlChangelist :=
  { C with ChangelistName := "", bInitialized := false }

/-- `GetTypeHash(const FGitSourceControlChangelist&)`. -/
def GetTypeHash (Step : Nat → Char → Nat) (InGitChangelist : FGitSourceControlChangelist) : Nat :=
  GetTypeHash_FString Step InGitChangelist.ChangelistName

/-- `GetName`. -/
def GetName (C : FGitSourceControlChangelist) : FString := C.ChangelistName

/-- `GetIdentifier`. -/
def GetIdentifier (C : FGitSourceControlChangelist) : FString := C.ChangelistName

end FGitSourceControlChangelist

/-! ## Changelist state (`GitSourceControlChangelistState.{h,cpp}`) -/

/-- Host `FSourceControlStateRef`: a shared reference to a file state, by identity. -/
structure FSourceControlStateRef where
  Id : Nat
  deriving DecidableEq, Repr

/-- Members of `FGitSourceControlChangelistState`. -/
structure FGitSourceControlChangelistState where
  Changelist : FGitSourceControlChangelist
  Description : FString
  Files : List FSourceControlStateRef
  ShelvedFiles : List FSourceControlStateRef
  TimeStamp : Int
  deriving DecidableEq, Repr

namespace FGitSourceControlChangelistState

/-- Constructors `FGitSourceControlChangelistState(InChangelist, InDescription)` (the copying
and the moving one build the same value); the other members take their default initialisers. -/
def Create (InChangelist : FGitSourceControlChangelist) (InDescription : FString) :
    FGitSourceControlChangelistState :=
  { Changelist := InChangelist
    Description := InDescription
    Files := []
    ShelvedFiles := []
    TimeStamp := 0 }

/-- `GetIconName`. -/
def GetIconName (_S : FGitSourceControlChangelistState) : FName :=
  "SourceControl.Changelist"

/-- `GetSmallIconName`. -/
def GetSmallIconName (S : FGitSourceControlChangelistState) : FName :=
  S.GetIconName

/-- `GetDisplayText`. -/
def GetDisplayText (S : FGitSourceControlChangelistState) : FText :=
  FText.FromString S.Changelist.GetName

/-- `GetDescriptionText`. -/
def GetDescriptionText (S : FGitSourceControlChangelistState) : FText :=
  FText.FromString S.Description

/-- `GetDisplayTooltip`. -/
def GetDisplayTooltip (_S : FGitSourceControlChangelistState) : FText :=
  LOCTEXT "Tooltip" "Tooltip"

/-- `GetTimeStamp`. -/
def GetTimeStamp (S : FGitSourceControlChangelistState) : Int := S.TimeStamp

/-- `GetFilesStates`. -/
def GetFilesStates (S : FGitSourceControlChangelistState) : List FSourceControlStateRef := S.Files

/-- `GetFilesStatesNum`. -/
def GetFilesStatesNum (S : FGitSourceControlChangelistState) : Nat := S.Files.length

/-- `GetShelvedFilesStates`. -/
def GetShelvedFilesStates (S : FGitSourceControlChangelistState) : List FSourceControlStateRef :=
  S.ShelvedFiles

/-- `GetShelvedFilesStatesNum`. -/
def GetShelvedFilesStatesNum (S : FGitSourceControlChangelistState) : Nat := S.ShelvedFiles.length

/-- `GetChangelist`: a shared reference to a copy of the `Changelist` member. -/
def GetChangelist (S : FGitSourceControlChangelistState) : FGitSourceControlChangelist :=
  let ChangelistCopy : FGitSourceControlChangelist :=
    ⟨S.Changelist.ChangelistName, S.Changelist.bInitialized⟩
  ChangelistCopy

end FGitSourceControlChangelistState

/-! ## Reference data for the statements -/

/-- The twelve operation names the specification lists. -/
def SpecOperationNames : List FName :=
  ["Connect", "CheckOut", "UpdateStatus", "MarkForAdd", "Delete", "Revert", "Sync", "Fetch",
    "CheckIn", "Copy", "Resolve", "MoveToChangelist"]

/-- The configured `RequiredAccessRepositoryURL` as `StartupModule` reads it (empty when the
key is absent). -/
def RequiredRepositoryAccessURL (env : Env) : FString :=
  (env.GConfig_GetString "GitSourceControl" "RequiredAccessRepositoryURL").getD ""

/-- The branch name `StartupModule` checks: the configured
`RequiredAccessRepositoryBranchName`, or "main" when that is empty or absent. -/
def RequiredRepositoryAccessBranchName (env : Env) : FString :=
  if FString.IsEmpty
      ((env.GConfig_GetString "GitSourceControl" "RequiredAccessRepositoryBranchName").getD "") then
    "main"
  else (env.GConfig_GetString "GitSourceControl" "RequiredAccessRepositoryBranchName").getD ""

/-- The parameters of the `git ls-remote` launch of `StartupModule`. -/
def AccessCheckParams (env : Env) : FString :=
  FString.Format "ls-remote --exit-code {0} {1}"
    [RequiredRepositoryAccessURL env, RequiredRepositoryAccessBranchName env]

/-- How the `git ls-remote` launch of `StartupModule` ends in the environment. -/
def AccessCheckResult (env : Env) : FExecResult :=
  env.ExecProcess "git" (AccessCheckParams env)

/-- The next `N` handles the host counter hands out, starting from counter value `G`. -/
def NextHandles : Nat → Nat → List FDelegateHandle
  | 0, _ => []
  | N + 1, G => ⟨GenerateNewID G⟩ :: NextHandles N (GenerateNewID G)

/-- All delegates in the five content-browser lists the module touches. -/
def FContentBrowserModule.AllDelegates (CB : FContentBrowserModule) : List FDelegateInstance :=
  CB.OnFilterChanged ++ CB.OnSearchBoxChanged ++ CB.OnAssetSelectionChanged ++
    CB.OnAssetPathChanged ++ CB.AllAssetViewContextMenuExtenders

/-- Delegate handles are unique: no delegate already in a host list carries one of the (at most
five) handles the counter hands out during `StartupModule`. -/
def HandlesUnique (W : World) : Prop :=
  ∀ D ∈ W.ContentBrowser.AllDelegates, D.GetHandle ∉ NextHandles 5 W.GNextID

/-- The module's provider is not bound under "SourceControl" in the modular-feature registry
(the state of the registry while the module is not started). -/
def ProviderUnbound (W : World) : Prop :=
  W.ModularFeatures.any
    (fun E => FeaturePairEquals E (NAME_SourceControl, EModularFeature.GitSourceControlProvider)) =
      false

/-- The conditions under which an asset is diffed against the origin branch, in the order the
specification lists them: the cached state of the package file is valid and source-controlled, the
package exists on disk, the origin revision is there and its file could be fetched to a temp
file, the temp package loaded, and it contains an object named `InPackageName`.  The result is
that old object together with the origin revision. -/
def OriginDiffInputs (env : Env) (W : World) (InPackagePath InPackageName BranchName : FString) :
    Option (UObject × FSourceControlRevision) :=
  (env.GetState (env.PackageFilename InPackagePath)).bind fun State =>
    if State.IsSourceControlled then
      (env.DoesPackageExist InPackagePath).bind fun RelativeFileName =>
        (env.GetOriginRevisionOnBranch W.Module.GitSourceControlSettings.GetBinaryPath
          W.Module.GitSourceControlProvider.GetPathToRepositoryRoot RelativeFileName
          BranchName).bind fun Revision =>
          Revision.GetResult.bind fun TempFileName =>
            (env.LoadPackage TempFileName).bind fun TempPackage =>
              (env.FindObject TempPackage InPackageName).map fun OldObject =>
                (OldObject, Revision)
    else none

/-- A freshly constructed module: no workers, default members. -/
def FreshModule : FGitSourceControlModule :=
  { GitSourceControlProvider :=
      { WorkersMap := [], TicksUntilNextForcedUpdate := 0, StatusBranchNames := [],
        PathToRepositoryRoot := "" }
    GitSourceControlSettings := { BinaryPath := "git" }
    CbdHandle_OnFilterChanged := ⟨0⟩
    CbdHandle_OnSearchBoxChanged := ⟨0⟩
    CbdHandle_OnAssetSelectionChanged := ⟨0⟩
    CbdHandle_OnAssetPathChanged := ⟨0⟩
    CbdHandle_OnExtendAssetSelectionMenu := ⟨0⟩ }

/-- An editor world with a few delegates and features of other parties already registered. -/
def SampleWorld : World :=
  { Module := FreshModule
    GNextID := 7
    ContentBrowser :=
      { OnFilterChanged := [⟨⟨3⟩, .Foreign 30⟩]
        OnSearchBoxChanged := []
        OnAssetSelectionChanged := [⟨⟨4⟩, .Foreign 40⟩, ⟨⟨5⟩, .Foreign 50⟩]
        OnAssetPathChanged := []
        AllAssetViewContextMenuExtenders := [⟨⟨6⟩, .Foreign 60⟩] }
    ModularFeatures := [("SourceControl", .Foreign 1), ("Other", .Foreign 2)]
    Trace := [] }

/-- An environment (UE 5.3) in which `ConfiguredURL` is the configured required repository and
every launch of a process ends as `Exec`; nothing is under source control. -/
def SampleEnv (ConfiguredURL : Option FString) (Exec : FExecResult) : Env :=
  { EngineVersion := ⟨5, 3, 0⟩
    GConfig_GetString := fun _Section Key =>
      if Key == "RequiredAccessRepositoryURL" then ConfiguredURL else none
    ExecProcess := fun _ _ => Exec
    bIsUnattended := false
    bIsRunningCommandlet := false
    bModuleLoaded := true
    AppStyleSetName := "EditorStyle"
    EditorStyleSetName := "EditorStyle"
    GetAsset := fun _ => none
    PackageFilename := fun P => P
    GetState := fun _ => none
    DoesPackageExist := fun _ => none
    GetOriginRevisionOnBranch := fun _ _ _ _ => none
    LoadPackage := fun _ => none
    FindObject := fun _ _ => none }

/-! ## Content-browser events -/

/-- Host `FARFilter`, by identity. -/
structure FARFilter where
  Id : Nat
  deriving DecidableEq, Repr

/-- A content-browser event, with the arguments the host passes to the delegates of that
event. -/
inductive FContentBrowserEvent
  | FilterChanged (Filter : FARFilter) (bIsPrimaryBrowser : Bool)
  | SearchBoxChanged (InSearchText : FText) (bIsPrimaryBrowser : Bool)
  | AssetSelectionChanged (NewSelectedAssets : List FAssetData) (bIsPrimaryBrowser : Bool)
  | AssetPathChanged (NewPath : FString)
  deriving DecidableEq, Repr

/-- Invoking a bound callable with the arguments of an event.  The lambdas of lines 112-115
leave their parameters unnamed, so the arguments play no part in what they do. -/
def ECallable.Invoke (C : ECallable) (_Args : FContentBrowserEvent)
    (P : FGitSourceControlProvider) : FGitSourceControlProvider :=
  C.Execute P

/-- The delegate list the host broadcasts an event on: `GetOnFilterChanged()`,
`GetOnSearchBoxChanged()`, `GetOnAssetSelectionChanged()` or `GetOnAssetPathChanged()`. -/
def FContentBrowserEvent.Delegates (E : FContentBrowserEvent) (CB : FContentBrowserModule) :
    List FDelegateInstance :=
  match E with
  | .FilterChanged _ _ => CB.OnFilterChanged
  | .SearchBoxChanged _ _ => CB.OnSearchBoxChanged
  | .AssetSelectionChanged _ _ => CB.OnAssetSelectionChanged
  | .AssetPathChanged _ => CB.OnAssetPathChanged

/-- Host multicast `Broadcast`: every delegate of the event's list is invoked with the event's
arguments, in reverse order of the invocation list. -/
def World.Broadcast (W : World) (E : FContentBrowserEvent) : World :=
  { W with Module := { W.Module with
      GitSourceControlProvider :=
        (E.Delegates W.ContentBrowser).foldr (fun D P => D.Bound.Invoke E P)
          W.Module.GitSourceControlProvider } }

/-- The value the specification gives each event: 2 for a filter-changed or asset-path-changed
event, 1 for a search-box-changed or asset-selection-changed event. -/
def FContentBrowserEvent.ForcedUpdateTicks : FContentBrowserEvent → Int
  | .FilterChanged _ _ => 2
  | .SearchBoxChanged _ _ => 1
  | .AssetSelectionChanged _ _ => 1
  | .AssetPathChanged _ => 2

/-- The lambda `StartupModule` adds to the delegate list of an event (lines 112-115). -/
def FContentBrowserEvent.Lambda : FContentBrowserEvent → ECallable
  | .FilterChanged _ _ => .OnFilterChangedLambda
  | .SearchBoxChanged _ _ => .OnSearchBoxChangedLambda
  | .AssetSelectionChanged _ _ => .OnAssetSelectionChangedLambda
  | .AssetPathChanged _ => .OnAssetPathChangedLambda

/-- Whether a callable was bound by another party. -/
def ECallable.IsForeign : ECallable → Bool
  | .Foreign _ => true
  | _ => false

/-- Every delegate already in the host lists was bound by another party (the state of the lists
while the module is not started). -/
def DelegatesOfOthers (W : World) : Prop :=
  ∀ D ∈ W.ContentBrowser.AllDelegates, D.Bound.IsForeign = true

/-- The last delegate of each of the four event lists is the module's lambda for that event and
the delegates before it were bound by other parties. -/
def HandlersInstalled (CB : FContentBrowserModule) : Prop :=
  ∀ E : FContentBrowserEvent, ∃ (Others : List FDelegateInstance) (H : FDelegateHandle),
    E.Delegates CB = Others ++ [FDelegateInstance.mk H E.Lambda] ∧
      ∀ D ∈ Others, D.Bound.IsForeign = true

/-! ## The three stages of `StartupModule`, for the proofs -/

/-- First stage of `StartupModule`: the thirteen `RegisterWorker` calls and `LoadSettings`. -/
def StartupModule_Register (W0 : World) : World :=
  let W := W0.RegisterWorker "Connect" (.CreateStatic .FGitConnectWorker)
  let W := W.RegisterWorker "CheckOut" (.CreateStatic .FGitCheckOutWorker)
  let W := W.RegisterWorker "UpdateStatus" (.CreateStatic .FGitUpdateStatusWorker)
  let W := W.RegisterWorker "MarkForAdd" (.CreateStatic .FGitMarkForAddWorker)
  let W := W.RegisterWorker "Delete" (.CreateStatic .FGitDeleteWorker)
  let W := W.RegisterWorker "Revert" (.CreateStatic .FGitRevertWorker)
  let W := W.RegisterWorker "Sync" (.CreateStatic .FGitSyncWorker)
  let W := W.RegisterWorker "Fetch" (.CreateStatic .FGitFetchWorker)
  let W := W.RegisterWorker "CheckIn" (.CreateStatic .FGitCheckInWorker)
  let W := W.RegisterWorker "Copy" (.CreateStatic .FGitCopyWorker)
  let W := W.RegisterWorker "Resolve" (.CreateStatic .FGitResolveWorker)
  let W := W.RegisterWorker "MoveToChangelist" (.CreateStatic .FGitMoveToChangelistWorker)
  let W := W.RegisterWorker "UpdateChangelistsStatus" (.CreateStatic .FGitUpdateStagingWorker)
  W.Emit Event.LoadSettings

/-- Second stage of `StartupModule`: the required-repository access check. -/
def StartupModule_CheckAccess (env : Env) (W : World) : Outcome :=
  if !FString.IsEmpty (RequiredRepositoryAccessURL env) then
    let W1 := W.Emit (Event.ExecProcess "git" (AccessCheckParams env))
    if !(AccessCheckResult env).bLaunchedProcess then
      .Aborted (W1.UE_LOG "LogSourceControl" .Fatal "Could not launch git: %s"
        [.Str (AccessCheckResult env).StdErr])
    else if (AccessCheckResult env).ReturnCode != 0 then
      .Aborted (W1.UE_LOG "LogSourceControl" .Fatal
        "Could access branch %s on required repository %s(%d): %s"
        [.Str (RequiredRepositoryAccessBranchName env), .Str (RequiredRepositoryAccessURL env),
          .Num (AccessCheckResult env).ReturnCode,
          .Str (if FString.IsEmpty (AccessCheckResult env).StdErr then "Branch not found"
            else (AccessCheckResult env).StdErr)])
    else .Returned W1
  else .Returned W

/-- Third stage of `StartupModule`: binding the provider and the content-browser hooks. -/
def StartupModule_Bind (env : Env) (W : World) : Outcome :=
  let W := W.RegisterModularFeature NAME_SourceControl .GitSourceControlProvider
  let W := W.Emit (Event.LoadModule NAME_ContentBrowser)
  let W :=
    if !UE_VERSION_OLDER_THAN env.EngineVersion 5 0 0 then
      let W := W.AddLambda_OnFilterChanged
      let W := W.AddLambda_OnSearchBoxChanged
      let W := W.AddLambda_OnAssetSelectionChanged
      W.AddLambda_OnAssetPathChanged
    else W
  W.Add_OnExtendAssetSelectionMenu

/-! ## Lemmas on the host containers -/

theorem IgnoreCaseEquals_refl (A : String) : IgnoreCaseEquals A A = true := by
  simp [IgnoreCaseEquals]

theorem IgnoreCaseEquals_iff (A B : String) :
    IgnoreCaseEquals A B = true ↔ A.data.map Char.toUpper = B.data.map Char.toUpper := by
  simp [IgnoreCaseEquals]

theorem TMapFind_TMapAdd_same {V : Type} (M : List (FName × V)) (K : FName) (Val : V) :
    TMapFind (TMapAdd M K Val) K = some Val := by
  induction M with
  | nil => simp [TMapAdd, TMapFind, IgnoreCaseEquals_refl]
  | cons E Rest ih =>
    obtain ⟨K0, V0⟩ := E
    by_cases h : IgnoreCaseEquals K0 K = true
    · simp [TMapAdd, TMapFind, h, IgnoreCaseEquals_refl]
    · simp [TMapAdd, TMapFind, h, ih]

theorem TMapFind_TMapAdd_other {V : Type} (M : List (FName × V)) (K K2 : FName) (Val : V)
    (hne : IgnoreCaseEquals K K2 = false) :
    TMapFind (TMapAdd M K Val) K2 = TMapFind M K2 := by
  induction M with
  | nil => simp [TMapAdd, TMapFind, hne]
  | cons E Rest ih =>
    obtain ⟨K0, V0⟩ := E
    by_cases h : IgnoreCaseEquals K0 K = true
    · have h2 : IgnoreCaseEquals K0 K2 = false := by
        rw [Bool.eq_false_iff] at hne ⊢
        intro h3
        apply hne
        rw [IgnoreCaseEquals_iff] at h h3 ⊢
        rw [← h, h3]
      simp [TMapAdd, TMapFind, h, h2, hne]
    · by_cases h3 : IgnoreCaseEquals K0 K2 = true
      · simp [TMapAdd, TMapFind, h, h3]
      · simp [TMapAdd, TMapFind, h, h3, ih]

theorem TMultiMapAddUnique_any (M : List (FName × EModularFeature)) (K : FName)
    (F : EModularFeature) :
    (TMultiMapAddUnique M K F).any (fun E => FeaturePairEquals E (K, F)) = true := by
  unfold TMultiMapAddUnique
  split_ifs with h
  · exact h
  · simp [FeaturePairEquals, IgnoreCaseEquals_refl]

theorem GenerateNewID_ne_zero (G : Nat) : GenerateNewID G ≠ 0 := by
  unfold GenerateNewID
  simp only []
  split_ifs with h
  · simp only [beq_iff_eq] at h
    rw [h]
    decide
  · simpa using h

theorem MulticastRemove_append_fresh (L : List FDelegateInstance) (H : FDelegateHandle)
    (C : ECallable) (hValid : H.IsValid = true) (hFresh : ∀ D ∈ L, D.GetHandle ≠ H) :
    MulticastRemove (L ++ [FDelegateInstance.mk H C]) H = L := by
  induction L with
  | nil => simp [MulticastRemove, hValid, FDelegateInstance.GetHandle]
  | cons D Rest ih =>
    have hD : D.GetHandle ≠ H := hFresh D (List.mem_cons_self _ _)
    have hRest : ∀ D0 ∈ Rest, D0.GetHandle ≠ H := fun D0 h0 => hFresh D0 (List.mem_cons_of_mem _ h0)
    have ih2 := ih hRest
    rw [List.cons_append, MulticastRemove]
    simp only [hValid, if_true, beq_iff_eq, hD, if_false]
    rw [ih2]

theorem TArrayRemoveAll_append_fresh (L : List FDelegateInstance) (H : FDelegateHandle)
    (C : ECallable) (hFresh : ∀ D ∈ L, D.GetHandle ≠ H) :
    TArrayRemoveAll (L ++ [FDelegateInstance.mk H C]) (fun Delegate => Delegate.GetHandle == H) =
      L := by
  unfold TArrayRemoveAll
  rw [List.filter_append]
  have h1 : List.filter (fun X => !(X.GetHandle == H)) L = L := by
    rw [List.filter_eq_self]
    intro D hD
    simpa using hFresh D hD
  rw [h1]
  simp [FDelegateInstance.GetHandle]

theorem TMultiMapRemoveSingle_fresh (M : List (FName × EModularFeature)) (K : FName)
    (F : EModularFeature) (hFresh : M.any (fun E => FeaturePairEquals E (K, F)) = false) :
    TMultiMapRemoveSingle (M ++ [(K, F)]) K F = M := by
  induction M with
  | nil => simp [TMultiMapRemoveSingle, FeaturePairEquals, IgnoreCaseEquals_refl]
  | cons E Rest ih =>
    simp only [List.any_cons, Bool.or_eq_false_iff] at hFresh
    rw [List.cons_append, TMultiMapRemoveSingle]
    simp only [hFresh.1, if_false, Bool.false_eq_true]
    rw [ih hFresh.2]

theorem TMultiMapRemoveSingle_AddUnique (M : List (FName × EModularFeature)) (K : FName)
    (F : EModularFeature) (hFresh : M.any (fun E => FeaturePairEquals E (K, F)) = false) :
    TMultiMapRemoveSingle (TMultiMapAddUnique M K F) K F = M := by
  unfold TMultiMapAddUnique
  rw [hFresh]
  simp only [Bool.false_eq_true, if_false]
  exact TMultiMapRemoveSingle_fresh M K F hFresh

theorem FDelegateHandle_IsValid_new (G : Nat) :
    (FDelegateHandle.mk (GenerateNewID G)).IsValid = true := by
  simp [FDelegateHandle.IsValid, GenerateNewID_ne_zero]

theorem EventsSince_append (W W1 : World) (Events : List Event)
    (h : W1.Trace = W.Trace ++ Events) : EventsSince W W1 = Events := by
  simp [EventsSince, h]

/-! ## `StartupModule` by stages -/

theorem StartupModule_eq_stages (env : Env) (W : World) :
    FGitSourceControlModule.StartupModule env W =
      match StartupModule_CheckAccess env (StartupModule_Register W) with
      | .Aborted WA => .Aborted WA
      | .Returned W1 => StartupModule_Bind env W1 := by
  rfl

theorem StartupModule_Register_frame (W : World) :
    (StartupModule_Register W).GNextID = W.GNextID ∧
      (StartupModule_Register W).ContentBrowser = W.ContentBrowser ∧
      (StartupModule_Register W).ModularFeatures = W.ModularFeatures ∧
      ∃ Events, (StartupModule_Register W).Trace = W.Trace ++ Events ∧
        ProcessLaunches Events = [] ∧ (∀ E ∈ Events, E.IsFatalLog = false) ∧
        RegisterWorkerCalls Events =
          [("Connect", .FGitConnectWorker), ("CheckOut", .FGitCheckOutWorker),
            ("UpdateStatus", .FGitUpdateStatusWorker), ("MarkForAdd", .FGitMarkForAddWorker),
            ("Delete", .FGitDeleteWorker), ("Revert", .FGitRevertWorker),
            ("Sync", .FGitSyncWorker), ("Fetch", .FGitFetchWorker),
            ("CheckIn", .FGitCheckInWorker), ("Copy", .FGitCopyWorker),
            ("Resolve", .FGitResolveWorker), ("MoveToChangelist", .FGitMoveToChangelistWorker),
            ("UpdateChangelistsStatus", .FGitUpdateStagingWorker)] := by
  simp only [StartupModule_Register, World.RegisterWorker, World.Emit, List.append_assoc,
    true_and]
  refine ⟨?_, ?_, ?_, ?_, ?_⟩
  on_goal 2 => exact rfl
  · simp [ProcessLaunches]
  · simp [Event.IsFatalLog]
  · simp [RegisterWorkerCalls, FGetGitSourceControlWorker.CreateStatic]

theorem StartupModule_Register_provider (W : World) :
    (StartupModule_Register W).Module.GitSourceControlProvider.WorkersMap =
      TMapAdd (TMapAdd (TMapAdd (TMapAdd (TMapAdd (TMapAdd (TMapAdd (TMapAdd (TMapAdd (TMapAdd
        (TMapAdd (TMapAdd (TMapAdd W.Module.GitSourceControlProvider.WorkersMap
          "Connect" ⟨.FGitConnectWorker⟩)
          "CheckOut" ⟨.FGitCheckOutWorker⟩)
          "UpdateStatus" ⟨.FGitUpdateStatusWorker⟩)
          "MarkForAdd" ⟨.FGitMarkForAddWorker⟩)
          "Delete" ⟨.FGitDeleteWorker⟩)
          "Revert" ⟨.FGitRevertWorker⟩)
          "Sync" ⟨.FGitSyncWorker⟩)
          "Fetch" ⟨.FGitFetchWorker⟩)
          "CheckIn" ⟨.FGitCheckInWorker⟩)
          "Copy" ⟨.FGitCopyWorker⟩)
          "Resolve" ⟨.FGitResolveWorker⟩)
          "MoveToChangelist" ⟨.FGitMoveToChangelistWorker⟩)
          "UpdateChangelistsStatus" ⟨.FGitUpdateStagingWorker⟩ := by
  simp only [StartupModule_Register, World.RegisterWorker, World.Emit,
    FGitSourceControlProvider.RegisterWorker, FGetGitSourceControlWorker.CreateStatic]

theorem StartupModule_CheckAccess_frame (env : Env) (W : World) :
    (StartupModule_CheckAccess env W).World.Module = W.Module ∧
      (StartupModule_CheckAccess env W).World.GNextID = W.GNextID ∧
      (StartupModule_CheckAccess env W).World.ContentBrowser = W.ContentBrowser ∧
      (StartupModule_CheckAccess env W).World.ModularFeatures = W.ModularFeatures := by
  unfold StartupModule_CheckAccess
  split_ifs <;> simp [Outcome.World, World.Emit, World.UE_LOG]

theorem StartupModule_CheckAccess_aborted (env : Env) (W : World) :
    (StartupModule_CheckAccess env W).bAborted = true ↔
      (FString.IsEmpty (RequiredRepositoryAccessURL env) = false ∧
        ((AccessCheckResult env).bLaunchedProcess = false ∨
          (AccessCheckResult env).ReturnCode ≠ 0)) := by
  unfold StartupModule_CheckAccess
  split_ifs <;> simp_all [Outcome.bAborted]

theorem StartupModule_CheckAccess_trace (env : Env) (W : World) :
    ∃ Events, (StartupModule_CheckAccess env W).World.Trace = W.Trace ++ Events ∧
      ((∃ E ∈ Events, E.IsFatalLog = true) ↔ (StartupModule_CheckAccess env W).bAborted = true) ∧
      ProcessLaunches Events =
        (if FString.IsEmpty (RequiredRepositoryAccessURL env) then []
          else [("git", AccessCheckParams env)]) ∧
      RegisterWorkerCalls Events = [] := by
  unfold StartupModule_CheckAccess
  split_ifs
  all_goals first
    | (refine ⟨?_, ?_, ?_, ?_, ?_⟩
       on_goal 2 =>
         simp only [Outcome.World, World.Emit, World.UE_LOG, List.append_assoc]
         try exact rfl
       · simp [Event.IsFatalLog, Outcome.bAborted]
       · simp_all [ProcessLaunches]
       · simp [RegisterWorkerCalls])
    | (refine ⟨[], ?_, ?_, ?_, rfl⟩
       · simp [Outcome.World]
       · simp [Outcome.bAborted]
       · simp_all [ProcessLaunches])

theorem StartupModule_Bind_returned (env : Env) (W : World) :
    ∃ W2, StartupModule_Bind env W = Outcome.Returned W2 ∧
      W2.Trace = W.Trace ++ [Event.LoadModule NAME_ContentBrowser] ∧
      W2.ModularFeatures = TMultiMapAddUnique W.ModularFeatures NAME_SourceControl
        EModularFeature.GitSourceControlProvider ∧
      W2.Module.GitSourceControlProvider = W.Module.GitSourceControlProvider := by
  unfold StartupModule_Bind World.Add_OnExtendAssetSelectionMenu
  simp only [TArrayLast, List.getLast?_append, List.getLast?_singleton, Option.or_some]
  refine ⟨_, rfl, ?_, ?_, ?_⟩
  · split_ifs <;> simp [World.AddLambda_OnFilterChanged, World.AddLambda_OnSearchBoxChanged,
      World.AddLambda_OnAssetSelectionChanged, World.AddLambda_OnAssetPathChanged, World.Emit,
      World.RegisterModularFeature]
  · split_ifs <;> simp [World.AddLambda_OnFilterChanged, World.AddLambda_OnSearchBoxChanged,
      World.AddLambda_OnAssetSelectionChanged, World.AddLambda_OnAssetPathChanged, World.Emit,
      World.RegisterModularFeature]
  · split_ifs <;> simp [World.AddLambda_OnFilterChanged, World.AddLambda_OnSearchBoxChanged,
      World.AddLambda_OnAssetSelectionChanged, World.AddLambda_OnAssetPathChanged, World.Emit,
      World.RegisterModularFeature]

theorem StartupModule_trace (env : Env) (W : World) :
    ∃ Events, (FGitSourceControlModule.StartupModule env W).World.Trace = W.Trace ++ Events ∧
      ((∃ E ∈ Events, E.IsFatalLog = true) ↔
        (FString.IsEmpty (RequiredRepositoryAccessURL env) = false ∧
          ((AccessCheckResult env).bLaunchedProcess = false ∨
            (AccessCheckResult env).ReturnCode ≠ 0))) ∧
      ((FGitSourceControlModule.StartupModule env W).bAborted = true ↔
        (FString.IsEmpty (RequiredRepositoryAccessURL env) = false ∧
          ((AccessCheckResult env).bLaunchedProcess = false ∨
            (AccessCheckResult env).ReturnCode ≠ 0))) ∧
      ProcessLaunches Events =
        (if FString.IsEmpty (RequiredRepositoryAccessURL env) then []
          else [("git", AccessCheckParams env)]) ∧
      RegisterWorkerCalls Events =
        [("Connect", .FGitConnectWorker), ("CheckOut", .FGitCheckOutWorker),
          ("UpdateStatus", .FGitUpdateStatusWorker), ("MarkForAdd", .FGitMarkForAddWorker),
          ("Delete", .FGitDeleteWorker), ("Revert", .FGitRevertWorker),
          ("Sync", .FGitSyncWorker), ("Fetch", .FGitFetchWorker),
          ("CheckIn", .FGitCheckInWorker), ("Copy", .FGitCopyWorker),
          ("Resolve", .FGitResolveWorker), ("MoveToChangelist", .FGitMoveToChangelistWorker),
          ("UpdateChangelistsStatus", .FGitUpdateStagingWorker)] := by
  obtain ⟨-, -, -, Ev1, hT1, hP1, hF1, hR1⟩ := StartupModule_Register_frame W
  obtain ⟨Ev2, hT2, hF2, hP2, hR2⟩ :=
    StartupModule_CheckAccess_trace env (StartupModule_Register W)
  have hA := StartupModule_CheckAccess_aborted env (StartupModule_Register W)
  rw [StartupModule_eq_stages]
  cases hO : StartupModule_CheckAccess env (StartupModule_Register W) with
  | Aborted WA =>
    rw [hO] at hT2 hF2 hA
    simp only [Outcome.World] at hT2
    refine ⟨Ev1 ++ Ev2, ?_, ?_, ?_, ?_, ?_⟩
    · simp only [Outcome.World]
      rw [hT2, hT1, List.append_assoc]
    · rw [← hA, ← hF2]
      constructor
      · rintro ⟨E, hE, hFatal⟩
        rcases List.mem_append.mp hE with h | h
        · rw [hF1 E h] at hFatal
          exact absurd hFatal (by decide)
        · exact ⟨E, h, hFatal⟩
      · rintro ⟨E, hE, hFatal⟩
        exact ⟨E, List.mem_append.mpr (Or.inr hE), hFatal⟩
    · simpa only using hA
    · simp only [ProcessLaunches, List.filterMap_append] at hP1 hP2 ⊢
      rw [hP1, hP2, List.nil_append]
    · simp only [RegisterWorkerCalls, List.filterMap_append] at hR1 hR2 ⊢
      rw [hR1, hR2, List.append_nil]
  | Returned W1 =>
    rw [hO] at hT2 hF2 hA
    simp only [Outcome.World] at hT2
    obtain ⟨W2, hB, hT3, -, -⟩ := StartupModule_Bind_returned env W1
    simp only [hB]
    refine ⟨Ev1 ++ Ev2 ++ [Event.LoadModule NAME_ContentBrowser], ?_, ?_, ?_, ?_, ?_⟩
    · simp only [Outcome.World]
      rw [hT3, hT2, hT1, List.append_assoc, List.append_assoc, List.append_assoc]
    · rw [← hA, ← hF2]
      constructor
      · rintro ⟨E, hE, hFatal⟩
        rcases List.mem_append.mp hE with h | h
        · rcases List.mem_append.mp h with h | h
          · rw [hF1 E h] at hFatal
            exact absurd hFatal (by decide)
          · exact ⟨E, h, hFatal⟩
        · rw [List.mem_singleton] at h
          subst h
          exact absurd hFatal (by simp [Event.IsFatalLog])
      · rintro ⟨E, hE, hFatal⟩
        exact ⟨E, List.mem_append.mpr (Or.inl (List.mem_append.mpr (Or.inr hE))), hFatal⟩
    · rw [← hA]
      simp [Outcome.bAborted]
    · simp only [ProcessLaunches, List.filterMap_append] at hP1 hP2 ⊢
      rw [hP1, hP2]
      simp
    · simp only [RegisterWorkerCalls, List.filterMap_append] at hR1 hR2 ⊢
      rw [hR1, hR2]
      simp

theorem StartupModule_ModularFeatures (env : Env) (W : World)
    (hRun : (FGitSourceControlModule.StartupModule env W).bAborted = false) :
    (FGitSourceControlModule.StartupModule env W).World.ModularFeatures =
      TMultiMapAddUnique W.ModularFeatures NAME_SourceControl
        EModularFeature.GitSourceControlProvider := by
  obtain ⟨-, -, hM1, -⟩ := StartupModule_Register_frame W
  obtain ⟨-, -, -, hM2⟩ := StartupModule_CheckAccess_frame env (StartupModule_Register W)
  rw [StartupModule_eq_stages] at hRun ⊢
  cases hO : StartupModule_CheckAccess env (StartupModule_Register W) with
  | Aborted WA =>
    rw [hO] at hRun
    simp [Outcome.bAborted] at hRun
  | Returned W1 =>
    rw [hO] at hM2
    simp only [Outcome.World] at hM2
    obtain ⟨W2, hB, -, hM3, -⟩ := StartupModule_Bind_returned env W1
    simp only [hB, Outcome.World]
    rw [hM3, hM2, hM1]

theorem StartupModule_provider (env : Env) (W : World) :
    (FGitSourceControlModule.StartupModule env W).World.Module.GitSourceControlProvider =
      (StartupModule_Register W).Module.GitSourceControlProvider := by
  obtain ⟨hM2, -⟩ := StartupModule_CheckAccess_frame env (StartupModule_Register W)
  rw [StartupModule_eq_stages]
  cases hO : StartupModule_CheckAccess env (StartupModule_Register W) with
  | Aborted WA =>
    rw [hO] at hM2
    simp only [Outcome.World] at hM2 ⊢
    rw [hM2]
  | Returned W1 =>
    rw [hO] at hM2
    simp only [Outcome.World] at hM2
    obtain ⟨W2, hB, -, -, hP⟩ := StartupModule_Bind_returned env W1
    simp only [hB, Outcome.World]
    rw [hP, hM2]

/-! ## Worker registration -/

/-- C1: after `StartupModule`, whatever the configuration and the previous content of the
provider, each of the twelve listed operation names was passed to `RegisterWorker`, the provider
finds a worker factory under that name, and that factory creates the worker class of the same
operation, `FGit<Name>Worker`. -/
theorem StartupModule_registers_listed_workers (env : Env) (W : World) (Name : FName)
    (hName : Name ∈ SpecOperationNames) :
    ∃ Factory : FGetGitSourceControlWorker,
      (FGitSourceControlModule.StartupModule env W).World.Module.GitSourceControlProvider.FindWorker
          Name = some Factory ∧
        (Name, Factory.BoundType) ∈ RegisterWorkerCalls
          (EventsSince W (FGitSourceControlModule.StartupModule env W).World) ∧
        Factory.Execute.Class.ClassName = "FGit" ++ Name ++ "Worker" := by
  obtain ⟨Events, hT, -, -, -, hR⟩ := StartupModule_trace env W
  rw [StartupModule_provider, EventsSince_append W _ Events hT, hR]
  simp only [FGitSourceControlProvider.FindWorker]
  rw [StartupModule_Register_provider]
  simp only [SpecOperationNames, List.mem_cons, List.mem_singleton, List.not_mem_nil, or_false] at hName
  rcases hName with h | h | h | h | h | h | h | h | h | h | h | h <;> subst h <;>
    (repeat (first
      | rw [TMapFind_TMapAdd_same]
      | rw [TMapFind_TMapAdd_other _ _ _ _ (by decide)])) <;>
    exact ⟨_, rfl, by decide, by decide⟩

/-- Witness for C1 at the name "CheckOut". -/
theorem StartupModule_registers_listed_workers_witness :
    ∃ Factory : FGetGitSourceControlWorker,
      (FGitSourceControlModule.StartupModule (SampleEnv none ⟨true, 0, ""⟩)
          SampleWorld).World.Module.GitSourceControlProvider.FindWorker "CheckOut" = some Factory ∧
        ("CheckOut", Factory.BoundType) ∈ RegisterWorkerCalls
          (EventsSince SampleWorld
            (FGitSourceControlModule.StartupModule (SampleEnv none ⟨true, 0, ""⟩) SampleWorld).World) ∧
        Factory.Execute.Class.ClassName = "FGit" ++ "CheckOut" ++ "Worker" :=
  StartupModule_registers_listed_workers (SampleEnv none ⟨true, 0, ""⟩) SampleWorld "CheckOut"
    (by decide)

/-- C2 (as stated, refuted): in a run of `StartupModule` on a fresh module, not every name
passed to `RegisterWorker` is one of the twelve listed names, even up to the case-insensitive
comparison of names: "UpdateChangelistsStatus" is registered too. -/
theorem StartupModule_registers_unlisted_name :
    ¬ (∀ Call ∈ RegisterWorkerCalls
          (EventsSince SampleWorld
            (FGitSourceControlModule.StartupModule (SampleEnv none ⟨true, 0, ""⟩) SampleWorld).World),
        ∃ Name ∈ SpecOperationNames, IgnoreCaseEquals Name Call.1 = true) := by
  obtain ⟨Events, hT, -, -, -, hR⟩ :=
    StartupModule_trace (SampleEnv none ⟨true, 0, ""⟩) SampleWorld
  rw [EventsSince_append SampleWorld _ Events hT, hR]
  decide

/-- C2 (amended): the names passed to `RegisterWorker` during `StartupModule` are, in call
order, the twelve listed names followed by "UpdateChangelistsStatus", and no others. -/
theorem StartupModule_registered_names (env : Env) (W : World) :
    (RegisterWorkerCalls
        (EventsSince W (FGitSourceControlModule.StartupModule env W).World)).map Prod.fst =
      SpecOperationNames ++ ["UpdateChangelistsStatus"] := by
  obtain ⟨Events, hT, -, -, -, hR⟩ := StartupModule_trace env W
  rw [EventsSince_append W _ Events hT, hR]
  rfl

/-! ## Process launches and the required-repository check -/

theorem DiffAgainstOriginBranch_trace (env : Env) (W : World) (InObject : Option UObject)
    (InPackagePath InPackageName BranchName : FString) :
    ∃ Events : List Event,
      (FGitSourceControlModule.DiffAgainstOriginBranch env W InObject InPackagePath InPackageName
          BranchName).World.Trace = W.Trace ++ Events ∧
        ProcessLaunches Events = [] ∧ (DiffAssetsCalls Events).length ≤ 1 := by
  unfold FGitSourceControlModule.DiffAgainstOriginBranch
  cases InObject with
  | none => exact ⟨[Event.CheckFailed "InObject"], by simp [Outcome.World, World.Emit], rfl, by decide⟩
  | some Object =>
    simp only []
    repeat' split
    all_goals first
      | (refine ⟨?_, ?_, ?_, ?_⟩
         on_goal 2 =>
           simp only [Outcome.World, World.Emit, List.append_assoc]
           try exact rfl
         · simp [ProcessLaunches]
         · simp [DiffAssetsCalls])
      | (refine ⟨[], ?_, rfl, by decide⟩
         simp [Outcome.World])

theorem DiffAssetAgainstGitOriginBranch_trace (env : Env) (SelectedAssets : List FAssetData)
    (BranchName : FString) (W : World) :
    ∃ Events : List Event,
      (FGitSourceControlModule.DiffAssetAgainstGitOriginBranch env W SelectedAssets
          BranchName).World.Trace = W.Trace ++ Events ∧
        ProcessLaunches Events = [] := by
  induction SelectedAssets generalizing W with
  | nil => exact ⟨[], by simp [FGitSourceControlModule.DiffAssetAgainstGitOriginBranch, Outcome.World], rfl⟩
  | cons AssetData Rest ih =>
    unfold FGitSourceControlModule.DiffAssetAgainstGitOriginBranch
    cases hAsset : env.GetAsset AssetData with
    | none => simpa using ih W
    | some CurrentObject =>
      simp only []
      obtain ⟨E1, hT1, hP1, -⟩ := DiffAgainstOriginBranch_trace env W (some CurrentObject)
        AssetData.PackageName AssetData.AssetName BranchName
      cases hOut : FGitSourceControlModule.DiffAgainstOriginBranch env W (some CurrentObject)
          AssetData.PackageName AssetData.AssetName BranchName with
      | Aborted W1 =>
        rw [hOut] at hT1
        exact ⟨E1, by simpa [Outcome.World] using hT1, hP1⟩
      | Returned W1 =>
        rw [hOut] at hT1
        simp only [Outcome.World] at hT1
        obtain ⟨E2, hT2, hP2⟩ := ih W1
        refine ⟨E1 ++ E2, ?_, ?_⟩
        · simp only []
          rw [hT2, hT1, List.append_assoc]
        · simp [ProcessLaunches, List.filterMap_append] at hP1 hP2 ⊢
          exact ⟨hP1, hP2⟩

/-- C3 (as stated, refuted): with a required repository configured, a run of `StartupModule`
launches the `git` executable itself, through `FPlatformProcess::ExecProcess`. -/
theorem StartupModule_launches_git_when_configured :
    ProcessLaunches
        (EventsSince SampleWorld
          (FGitSourceControlModule.StartupModule
            (SampleEnv (some "https://example.com/repo.git") ⟨true, 0, ""⟩) SampleWorld).World) =
      [("git", "ls-remote --exit-code https://example.com/repo.git main")] ∧
    ¬ (ProcessLaunches
        (EventsSince SampleWorld
          (FGitSourceControlModule.StartupModule
            (SampleEnv (some "https://example.com/repo.git") ⟨true, 0, ""⟩) SampleWorld).World) =
      []) := by
  obtain ⟨Events, hT, -, -, hP, -⟩ :=
    StartupModule_trace (SampleEnv (some "https://example.com/repo.git") ⟨true, 0, ""⟩) SampleWorld
  rw [EventsSince_append SampleWorld _ Events hT, hP]
  decide

/-- C3 (amended): `StartupModule` launches `git` directly exactly when
`RequiredAccessRepositoryURL` is configured non-empty, and then once, as
`git ls-remote --exit-code <URL> <branch>`; with an empty URL it launches no process.  Every
other operation of the module that has side effects (`ShutdownModule`, `SaveSettings`,
`SetLastErrors`, `DiffAgainstOriginBranch`, `DiffAssetAgainstGitOriginBranch`) launches no
process: `DiffAgainstOriginBranch` reaches the backend only through
`GitSourceControlUtils::GetOriginRevisionOnBranch`. -/
theorem module_process_launches (env : Env) (W : World) :
    ProcessLaunches (EventsSince W (FGitSourceControlModule.StartupModule env W).World) =
        (if FString.IsEmpty (RequiredRepositoryAccessURL env) then []
          else [("git", AccessCheckParams env)]) ∧
      ProcessLaunches (EventsSince W (FGitSourceControlModule.ShutdownModule env W)) = [] ∧
      ProcessLaunches (EventsSince W (FGitSourceControlModule.SaveSettings env W)) = [] ∧
      (∀ InErrors : List FText,
        ProcessLaunches (EventsSince W (FGitSourceControlModule.SetLastErrors env W InErrors)) = []) ∧
      (∀ (InObject : Option UObject) (InPackagePath InPackageName BranchName : FString),
        ProcessLaunches (EventsSince W
          (FGitSourceControlModule.DiffAgainstOriginBranch env W InObject InPackagePath InPackageName
            BranchName).World) = []) ∧
      (∀ (SelectedAssets : List FAssetData) (BranchName : FString),
        ProcessLaunches (EventsSince W
          (FGitSourceControlModule.DiffAssetAgainstGitOriginBranch env W SelectedAssets
            BranchName).World) = []) := by
  refine ⟨?_, ?_, ?_, ?_, ?_, ?_⟩
  · obtain ⟨Events, hT, -, -, hP, -⟩ := StartupModule_trace env W
    rw [EventsSince_append W _ Events hT, hP]
  · unfold FGitSourceControlModule.ShutdownModule
    simp only []
    split_ifs <;>
      simp [World.Emit, World.UnregisterModularFeature, EventsSince, ProcessLaunches]
  · unfold FGitSourceControlModule.SaveSettings
    split_ifs <;> simp [World.Emit, EventsSince, ProcessLaunches]
  · intro InErrors
    unfold FGitSourceControlModule.SetLastErrors
    split_ifs <;> simp [World.Emit, EventsSince, ProcessLaunches]
  · intro InObject InPackagePath InPackageName BranchName
    obtain ⟨Events, hT, hP, -⟩ :=
      DiffAgainstOriginBranch_trace env W InObject InPackagePath InPackageName BranchName
    rw [EventsSince_append W _ Events hT]
    exact hP
  · intro SelectedAssets BranchName
    obtain ⟨Events, hT, hP⟩ :=
      DiffAssetAgainstGitOriginBranch_trace env SelectedAssets BranchName W
    rw [EventsSince_append W _ Events hT]
    exact hP

/-- C4: `StartupModule` logs a Fatal error (and is terminated by it) if and only if
`RequiredAccessRepositoryURL` is non-empty and the `git ls-remote --exit-code` launch either
could not be started or returned a non-zero code.  When the URL is empty, whatever the
branch-name setting, no process is launched, startup is not terminated and the provider is bound
under "SourceControl". -/
theorem StartupModule_fatal_iff_access_check_fails (env : Env) (W : World) :
    ((∃ E ∈ EventsSince W (FGitSourceControlModule.StartupModule env W).World,
          E.IsFatalLog = true) ↔
        (FString.IsEmpty (RequiredRepositoryAccessURL env) = false ∧
          ((AccessCheckResult env).bLaunchedProcess = false ∨
            (AccessCheckResult env).ReturnCode ≠ 0))) ∧
      ((FGitSourceControlModule.StartupModule env W).bAborted = true ↔
        (FString.IsEmpty (RequiredRepositoryAccessURL env) = false ∧
          ((AccessCheckResult env).bLaunchedProcess = false ∨
            (AccessCheckResult env).ReturnCode ≠ 0))) ∧
      (FString.IsEmpty (RequiredRepositoryAccessURL env) = true →
        ProcessLaunches (EventsSince W (FGitSourceControlModule.StartupModule env W).World) = [] ∧
          (FGitSourceControlModule.StartupModule env W).bAborted = false ∧
          (FGitSourceControlModule.StartupModule env W).World.ModularFeatures =
            TMultiMapAddUnique W.ModularFeatures NAME_SourceControl
              EModularFeature.GitSourceControlProvider ∧
          (FGitSourceControlModule.StartupModule env W).World.ModularFeatures.any
            (fun E => FeaturePairEquals E
              (NAME_SourceControl, EModularFeature.GitSourceControlProvider)) = true) := by
  obtain ⟨Events, hT, hFatal, hAborted, hLaunch, -⟩ := StartupModule_trace env W
  rw [EventsSince_append W _ Events hT]
  refine ⟨hFatal, hAborted, ?_⟩
  intro hEmpty
  have hRun : (FGitSourceControlModule.StartupModule env W).bAborted = false := by
    rw [Bool.eq_false_iff]
    intro h
    rw [hAborted, hEmpty] at h
    exact absurd h.1 (by decide)
  refine ⟨?_, hRun, StartupModule_ModularFeatures env W hRun, ?_⟩
  · rw [hLaunch, if_pos hEmpty]
  · rw [StartupModule_ModularFeatures env W hRun]
    exact TMultiMapAddUnique_any _ _ _

/-- Witness for C4: the empty-URL part at a world in which no required repository is
configured. -/
theorem StartupModule_fatal_iff_access_check_fails_witness :
    ProcessLaunches
        (EventsSince SampleWorld
          (FGitSourceControlModule.StartupModule (SampleEnv none ⟨false, 1, ""⟩) SampleWorld).World) =
        [] ∧
      (FGitSourceControlModule.StartupModule (SampleEnv none ⟨false, 1, ""⟩) SampleWorld).bAborted =
        false :=
  have h := (StartupModule_fatal_iff_access_check_fails (SampleEnv none ⟨false, 1, ""⟩)
    SampleWorld).2.2 (by decide)
  ⟨h.1, h.2.1⟩

/-! ## Startup followed by shutdown -/

theorem HandlesUnique_elim (W : World) (hUnique : HandlesUnique W) (D : FDelegateInstance)
    (hD : D ∈ W.ContentBrowser.AllDelegates) (H : FDelegateHandle)
    (hH : H ∈ NextHandles 5 W.GNextID) : D.GetHandle ≠ H := by
  intro hEq
  exact hUnique D hD (hEq ▸ hH)

theorem StartupModule_Bind_then_ShutdownModule (env : Env) (W W2 : World)
    (hUnique : HandlesUnique W) (hUnbound : ProviderUnbound W)
    (hB : StartupModule_Bind env W = Outcome.Returned W2) :
    (FGitSourceControlModule.ShutdownModule env W2).ContentBrowser = W.ContentBrowser ∧
      (FGitSourceControlModule.ShutdownModule env W2).ModularFeatures = W.ModularFeatures := by
  have f1 : ∀ D ∈ W.ContentBrowser.OnFilterChanged,
      D.GetHandle ≠ ⟨GenerateNewID W.GNextID⟩ := fun D hD =>
    HandlesUnique_elim W hUnique D (by simp [FContentBrowserModule.AllDelegates, hD]) _
      (by simp [NextHandles])
  have f2 : ∀ D ∈ W.ContentBrowser.OnSearchBoxChanged,
      D.GetHandle ≠ ⟨GenerateNewID (GenerateNewID W.GNextID)⟩ := fun D hD =>
    HandlesUnique_elim W hUnique D (by simp [FContentBrowserModule.AllDelegates, hD]) _
      (by simp [NextHandles])
  have f3 : ∀ D ∈ W.ContentBrowser.OnAssetSelectionChanged,
      D.GetHandle ≠ ⟨GenerateNewID (GenerateNewID (GenerateNewID W.GNextID))⟩ := fun D hD =>
    HandlesUnique_elim W hUnique D (by simp [FContentBrowserModule.AllDelegates, hD]) _
      (by simp [NextHandles])
  have f4 : ∀ D ∈ W.ContentBrowser.OnAssetPathChanged,
      D.GetHandle ≠ ⟨GenerateNewID (GenerateNewID (GenerateNewID (GenerateNewID W.GNextID)))⟩ :=
    fun D hD =>
    HandlesUnique_elim W hUnique D (by simp [FContentBrowserModule.AllDelegates, hD]) _
      (by simp [NextHandles])
  have f5 : ∀ D ∈ W.ContentBrowser.AllAssetViewContextMenuExtenders,
      D.GetHandle ≠
        ⟨GenerateNewID (GenerateNewID (GenerateNewID (GenerateNewID (GenerateNewID W.GNextID))))⟩ :=
    fun D hD =>
    HandlesUnique_elim W hUnique D (by simp [FContentBrowserModule.AllDelegates, hD]) _
      (by simp [NextHandles])
  have f6 : ∀ D ∈ W.ContentBrowser.AllAssetViewContextMenuExtenders,
      D.GetHandle ≠ ⟨GenerateNewID W.GNextID⟩ := fun D hD =>
    HandlesUnique_elim W hUnique D (by simp [FContentBrowserModule.AllDelegates, hD]) _
      (by simp [NextHandles])
  unfold ProviderUnbound at hUnbound
  clear hUnique
  rcases W with ⟨⟨P, S, h1, h2, h3, h4, h5⟩, g, ⟨l1, l2, l3, l4, l5⟩, mf, tr⟩
  simp only [] at f1 f2 f3 f4 f5 f6 hUnbound
  have v1 := FDelegateHandle_IsValid_new g
  have v2 := FDelegateHandle_IsValid_new (GenerateNewID g)
  have v3 := FDelegateHandle_IsValid_new (GenerateNewID (GenerateNewID g))
  have v4 := FDelegateHandle_IsValid_new (GenerateNewID (GenerateNewID (GenerateNewID g)))
  unfold StartupModule_Bind at hB
  by_cases hV : UE_VERSION_OLDER_THAN env.EngineVersion 5 0 0 = true
  · simp only [hV, Bool.not_true, Bool.false_eq_true, if_false, World.Emit,
      World.RegisterModularFeature, World.Add_OnExtendAssetSelectionMenu, NewDelegate,
      TArrayLast, List.getLast?_append, List.getLast?_singleton, Option.or_some,
      Outcome.Returned.injEq, FDelegateInstance.GetHandle] at hB
    subst hB
    unfold FGitSourceControlModule.ShutdownModule
    simp only [hV, Bool.not_true, Bool.false_eq_true, if_false, World.Emit,
      World.UnregisterModularFeature, FDelegateInstance.GetHandle]
    constructor
    · have h6 := TArrayRemoveAll_append_fresh _ _ ECallable.OnExtendContentBrowserAssetSelectionMenu f6
      simp only [FDelegateInstance.GetHandle] at h6
      rw [h6]
    · exact TMultiMapRemoveSingle_AddUnique _ _ _ hUnbound
  · simp only [hV, Bool.not_false, if_true, World.Emit, World.RegisterModularFeature] at hB
    simp only [World.AddLambda_OnFilterChanged] at hB
    simp only [World.AddLambda_OnSearchBoxChanged] at hB
    simp only [World.AddLambda_OnAssetSelectionChanged] at hB
    simp only [World.AddLambda_OnAssetPathChanged] at hB
    simp only [NewDelegate, FDelegateInstance.GetHandle] at hB
    generalize GenerateNewID g = g1 at *
    generalize GenerateNewID g1 = g2 at *
    generalize GenerateNewID g2 = g3 at *
    generalize GenerateNewID g3 = g4 at *
    unfold World.Add_OnExtendAssetSelectionMenu at hB
    simp only [TArrayLast, List.getLast?_append, List.getLast?_singleton, Option.or_some] at hB
    simp only [Outcome.Returned.injEq, NewDelegate, FDelegateInstance.GetHandle] at hB
    subst hB
    unfold FGitSourceControlModule.ShutdownModule
    simp only [hV, Bool.not_false, if_true, World.Emit,
      World.UnregisterModularFeature, FDelegateInstance.GetHandle]
    constructor
    · have h5 := TArrayRemoveAll_append_fresh _ _ ECallable.OnExtendContentBrowserAssetSelectionMenu f5
      simp only [FDelegateInstance.GetHandle] at h5
      rw [h5, MulticastRemove_append_fresh _ _ _ v1 f1, MulticastRemove_append_fresh _ _ _ v2 f2,
        MulticastRemove_append_fresh _ _ _ v3 f3, MulticastRemove_append_fresh _ _ _ v4 f4]
    · exact TMultiMapRemoveSingle_AddUnique _ _ _ hUnbound

/-- C5: from any host state in which delegate handles are unique and the module's provider is
not yet bound, a `StartupModule` that is not terminated by the access check followed by
`ShutdownModule` leaves the content browser's filter-changed, search-box-changed,
asset-selection-changed and asset-path-changed delegate lists, its asset-view context-menu
extender list and the modular-feature registry exactly as they were before `StartupModule`: the
module's own registrations are gone and no entry of another party is removed. -/
theorem ShutdownModule_undoes_StartupModule (env : Env) (W : World)
    (hUnique : HandlesUnique W) (hUnbound : ProviderUnbound W)
    (hRun : (FGitSourceControlModule.StartupModule env W).bAborted = false) :
    (FGitSourceControlModule.ShutdownModule env
        (FGitSourceControlModule.StartupModule env W).World).ContentBrowser = W.ContentBrowser ∧
      (FGitSourceControlModule.ShutdownModule env
        (FGitSourceControlModule.StartupModule env W).World).ModularFeatures =
          W.ModularFeatures := by
  obtain ⟨hG1, hC1, hM1, -⟩ := StartupModule_Register_frame W
  obtain ⟨-, hG2, hC2, hM2⟩ := StartupModule_CheckAccess_frame env (StartupModule_Register W)
  rw [StartupModule_eq_stages] at hRun ⊢
  cases hO : StartupModule_CheckAccess env (StartupModule_Register W) with
  | Aborted WA =>
    rw [hO] at hRun
    simp [Outcome.bAborted] at hRun
  | Returned W1 =>
    rw [hO] at hG2 hC2 hM2
    simp only [Outcome.World] at hG2 hC2 hM2
    obtain ⟨W2, hB, -⟩ := StartupModule_Bind_returned env W1
    have hUnique1 : HandlesUnique W1 := by
      unfold HandlesUnique at hUnique ⊢
      rw [hC2, hC1, hG2, hG1]
      exact hUnique
    have hUnbound1 : ProviderUnbound W1 := by
      unfold ProviderUnbound at hUnbound ⊢
      rw [hM2, hM1]
      exact hUnbound
    obtain ⟨hCB, hMF⟩ := StartupModule_Bind_then_ShutdownModule env W1 W2 hUnique1 hUnbound1 hB
    simp only [hB, Outcome.World]
    rw [hCB, hMF, hC2, hC1, hM2, hM1]
    exact ⟨rfl, rfl⟩

/-- Witness for C5: an editor (UE 5.3) with delegates and features of other parties, no
required repository configured. -/
theorem ShutdownModule_undoes_StartupModule_witness :
    (FGitSourceControlModule.ShutdownModule (SampleEnv none ⟨true, 0, ""⟩)
        (FGitSourceControlModule.StartupModule (SampleEnv none ⟨true, 0, ""⟩)
          SampleWorld).World).ContentBrowser = SampleWorld.ContentBrowser ∧
      (FGitSourceControlModule.ShutdownModule (SampleEnv none ⟨true, 0, ""⟩)
        (FGitSourceControlModule.StartupModule (SampleEnv none ⟨true, 0, ""⟩)
          SampleWorld).World).ModularFeatures = SampleWorld.ModularFeatures :=
  ShutdownModule_undoes_StartupModule (SampleEnv none ⟨true, 0, ""⟩) SampleWorld
    (by unfold HandlesUnique; decide) (by unfold ProviderUnbound; decide) (by decide)

/-! ## Changelist and changelist state -/

/-- C6: the state constructed from a changelist `C` and a description `D` shows the text of
`C`'s name and the text of `D`, has no file states and no shelved file states, and `GetChangelist`
(a pure function of the state, as the method is `const`) returns a changelist equal to `C` with
`C`'s name and initialized flag. -/
theorem ChangelistState_forwards_constructor_arguments (C : FGitSourceControlChangelist)
    (D : FString) :
    (FGitSourceControlChangelistState.Create C D).GetDisplayText = FText.FromString C.GetName ∧
      (FGitSourceControlChangelistState.Create C D).GetDescriptionText = FText.FromString D ∧
      (FGitSourceControlChangelistState.Create C D).GetFilesStates = [] ∧
      (FGitSourceControlChangelistState.Create C D).GetShelvedFilesStates = [] ∧
      (FGitSourceControlChangelistState.Create C D).GetChangelist.operator_eq C = true ∧
      (FGitSourceControlChangelistState.Create C D).GetChangelist.GetName = C.GetName ∧
      (FGitSourceControlChangelistState.Create C D).GetChangelist.IsInitialized =
        C.IsInitialized := by
  refine ⟨rfl, rfl, rfl, rfl, ?_, rfl, rfl⟩
  simp [FGitSourceControlChangelistState.GetChangelist, FGitSourceControlChangelistState.Create,
    FGitSourceControlChangelist.operator_eq, IgnoreCaseEquals_refl]

/-- C7 (the code at the failing input): a state with an active file and a state of the same
changelist without files get the same icon name, "SourceControl.Changelist"; the small icon is
that name too. -/
theorem GetIconName_same_with_and_without_files :
    FGitSourceControlChangelistState.GetIconName
        { FGitSourceControlChangelistState.Create ⟨"Working", true⟩ "" with Files := [⟨1⟩] } =
      FGitSourceControlChangelistState.GetIconName
        (FGitSourceControlChangelistState.Create ⟨"Working", true⟩ "") ∧
    FGitSourceControlChangelistState.GetIconName
        { FGitSourceControlChangelistState.Create ⟨"Working", true⟩ "" with Files := [⟨1⟩] } =
      "SourceControl.Changelist" ∧
    FGitSourceControlChangelistState.GetSmallIconName
        { FGitSourceControlChangelistState.Create ⟨"Working", true⟩ "" with Files := [⟨1⟩] } =
      "SourceControl.Changelist" := by
  decide

/-- C8: `operator==` of changelists compares the names alone, with the host's `FString`
comparison: it holds exactly when the names are equal under that comparison, in particular
whenever the names are identical, whatever the initialized flags; `operator!=` is its negation;
and equal changelists have equal hashes. -/
theorem Changelist_equality_and_hash_by_name (Step : Nat → Char → Nat)
    (A B : FGitSourceControlChangelist) :
    (A.operator_eq B = true ↔ IgnoreCaseEquals A.GetName B.GetName = true) ∧
      (∀ (Name : FString) (bInitializedA bInitializedB : Bool),
        (FGitSourceControlChangelist.Create Name bInitializedA).operator_eq
          (FGitSourceControlChangelist.Create Name bInitializedB) = true) ∧
      (∀ bInitializedA bInitializedB : Bool,
        A.operator_eq B =
          (FGitSourceControlChangelist.Create A.GetName bInitializedA).operator_eq
            (FGitSourceControlChangelist.Create B.GetName bInitializedB)) ∧
      A.operator_ne B = !A.operator_eq B ∧
      (A.operator_eq B = true →
        FGitSourceControlChangelist.GetTypeHash Step A =
          FGitSourceControlChangelist.GetTypeHash Step B) := by
  refine ⟨Iff.rfl, ?_, ?_, rfl, ?_⟩
  · intro Name bA bB
    simp [FGitSourceControlChangelist.operator_eq, FGitSourceControlChangelist.Create,
      IgnoreCaseEquals_refl]
  · intro bA bB
    rfl
  · intro hEq
    unfold FGitSourceControlChangelist.operator_eq at hEq
    rw [IgnoreCaseEquals_iff] at hEq
    unfold FGitSourceControlChangelist.GetTypeHash GetTypeHash_FString
    rw [hEq]

/-! ## Content-browser menu and asset diff -/

theorem FormatOrdered_StatusBranchDiff (Args : List FString) :
    FString.Format "Diff against status branch" Args = "Diff against status branch" := by
  rfl

/-- C9: `CreateGitContentBrowserAssetMenu` never indexes out of range (it always returns a menu
builder): with no status branch name it leaves the menu as it is, and otherwise it adds exactly
one entry, labelled "Diff against status branch", whose action is
`DiffAssetAgainstGitOriginBranch` bound to the selected assets and the first status branch
name. -/
theorem CreateGitContentBrowserAssetMenu_adds_at_most_one_entry (env : Env)
    (Module : FGitSourceControlModule) (MenuBuilder : FMenuBuilder)
    (SelectedAssets : List FAssetData) :
    ∃ Result : FMenuBuilder,
      FGitSourceControlModule.CreateGitContentBrowserAssetMenu env Module MenuBuilder
          SelectedAssets = some Result ∧
        (match Module.GitSourceControlProvider.GetStatusBranchNames with
          | [] => Result = MenuBuilder
          | BranchName :: _ =>
            ∃ Entry : FMenuEntry,
              Result.Entries = MenuBuilder.Entries ++ [Entry] ∧
                Entry.Label = FText.FromString "Diff against status branch" ∧
                Entry.Action =
                  FExecuteAction.DiffAssetAgainstGitOriginBranch SelectedAssets BranchName) := by
  unfold FGitSourceControlModule.CreateGitContentBrowserAssetMenu
  cases hNames : Module.GitSourceControlProvider.GetStatusBranchNames with
  | nil => exact ⟨MenuBuilder, by simp, rfl⟩
  | cons BranchName Rest =>
    refine ⟨_, by simp; rfl, _, rfl, ?_, rfl⟩
    simp only [FText.Format, LOCTEXT, FormatOrdered_StatusBranchDiff, FText.FromString]

/-- C10: for a non-null object, `DiffAgainstOriginBranch` calls `DiffAssets` at most once, and
exactly when the conditions of `OriginDiffInputs` all hold; the call then passes the old object
found in the temp package and the given object, an old revision info carrying the origin
revision's check-in identifier, date and revision, and a new revision info whose revision
string is empty. -/
theorem DiffAgainstOriginBranch_DiffAssets_calls (env : Env) (W : World) (Object : UObject)
    (InPackagePath InPackageName BranchName : FString) :
    DiffAssetsCalls (EventsSince W
        (FGitSourceControlModule.DiffAgainstOriginBranch env W (some Object) InPackagePath
          InPackageName BranchName).World) =
      (match OriginDiffInputs env W InPackagePath InPackageName BranchName with
        | none => []
        | some (OldObject, Revision) =>
          [(OldObject, Object,
            { FRevisionInfo.Default with
              Changelist := Revision.GetCheckInIdentifier
              Date := Revision.GetDate
              Revision := Revision.GetRevision },
            { FRevisionInfo.Default with Revision := "" })]) ∧
      (DiffAssetsCalls (EventsSince W
        (FGitSourceControlModule.DiffAgainstOriginBranch env W (some Object) InPackagePath
          InPackageName BranchName).World)).length ≤ 1 := by
  constructor
  · unfold FGitSourceControlModule.DiffAgainstOriginBranch OriginDiffInputs
    simp only []
    cases h1 : env.GetState (env.PackageFilename InPackagePath) with
    | none => simp [Outcome.World, EventsSince, DiffAssetsCalls]
    | some State =>
      by_cases hSCC : State.IsSourceControlled = true
      · cases h2 : env.DoesPackageExist InPackagePath with
        | none => simp [hSCC, Outcome.World, EventsSince, DiffAssetsCalls]
        | some RelativeFileName =>
          cases h3 : env.GetOriginRevisionOnBranch W.Module.GitSourceControlSettings.GetBinaryPath
              W.Module.GitSourceControlProvider.GetPathToRepositoryRoot RelativeFileName
              BranchName with
          | none => simp [hSCC, h3, Outcome.World, EventsSince, DiffAssetsCalls, World.Emit]
          | some Revision =>
            cases h4 : Revision.GetResult with
            | none => simp [hSCC, h3, h4, Outcome.World, EventsSince, DiffAssetsCalls, World.Emit]
            | some TempFileName =>
              cases h5 : env.LoadPackage TempFileName with
              | none =>
                simp [hSCC, h3, h4, h5, Outcome.World, EventsSince, DiffAssetsCalls, World.Emit]
              | some TempPackage =>
                cases h6 : env.FindObject TempPackage InPackageName with
                | none =>
                  simp [hSCC, h3, h4, h5, h6, Outcome.World, EventsSince, DiffAssetsCalls,
                    World.Emit]
                | some OldObject =>
                  simp [hSCC, h3, h4, h5, h6, Outcome.World, EventsSince, DiffAssetsCalls,
                    World.Emit]
      · simp [hSCC, Outcome.World, EventsSince, DiffAssetsCalls]
  · obtain ⟨Events, hT, -, hLen⟩ :=
      DiffAgainstOriginBranch_trace env W (some Object) InPackagePath InPackageName BranchName
    rw [EventsSince_append W _ Events hT]
    exact hLen

/-! ## Content-browser events after startup -/

theorem foldr_Invoke_of_others (E : FContentBrowserEvent) (Others : List FDelegateInstance)
    (hOthers : ∀ D ∈ Others, D.Bound.IsForeign = true) (P : FGitSourceControlProvider) :
    Others.foldr (fun D P => D.Bound.Invoke E P) P = P := by
  induction Others with
  | nil => rfl
  | cons D Rest ih =>
    have hD := hOthers D (List.mem_cons_self _ _)
    rw [List.foldr_cons, ih (fun D0 h0 => hOthers D0 (List.mem_cons_of_mem _ h0))]
    cases hB : D.Bound <;> simp [hB, ECallable.IsForeign] at hD
    simp [ECallable.Invoke, ECallable.Execute]

theorem Lambda_Invoke_Ticks (E Args : FContentBrowserEvent) (P : FGitSourceControlProvider) :
    (E.Lambda.Invoke Args P).TicksUntilNextForcedUpdate = E.ForcedUpdateTicks := by
  cases E <;> rfl

theorem Broadcast_of_HandlersInstalled (W : World) (E : FContentBrowserEvent)
    (hInstalled : HandlersInstalled W.ContentBrowser) :
    (W.Broadcast E).Module.GitSourceControlProvider.TicksUntilNextForcedUpdate =
        E.ForcedUpdateTicks ∧
      (W.Broadcast E).ContentBrowser = W.ContentBrowser := by
  obtain ⟨Others, H, hList, hOthers⟩ := hInstalled E
  refine ⟨?_, rfl⟩
  simp only [World.Broadcast, hList, List.foldr_append, List.foldr_cons, List.foldr_nil]
  rw [foldr_Invoke_of_others E Others hOthers]
  exact Lambda_Invoke_Ticks E E _

theorem foldl_Broadcast_ContentBrowser (Events : List FContentBrowserEvent) (W : World) :
    (Events.foldl World.Broadcast W).ContentBrowser = W.ContentBrowser := by
  induction Events generalizing W with
  | nil => rfl
  | cons E Rest ih =>
    rw [List.foldl_cons, ih]
    rfl

theorem StartupModule_Bind_HandlersInstalled (env : Env) (W W2 : World)
    (hV : UE_VERSION_OLDER_THAN env.EngineVersion 5 0 0 = false) (hOthers : DelegatesOfOthers W)
    (hB : StartupModule_Bind env W = Outcome.Returned W2) :
    HandlersInstalled W2.ContentBrowser := by
  have o1 : ∀ D ∈ W.ContentBrowser.OnFilterChanged, D.Bound.IsForeign = true := fun D hD =>
    hOthers D (by simp [FContentBrowserModule.AllDelegates, hD])
  have o2 : ∀ D ∈ W.ContentBrowser.OnSearchBoxChanged, D.Bound.IsForeign = true := fun D hD =>
    hOthers D (by simp [FContentBrowserModule.AllDelegates, hD])
  have o3 : ∀ D ∈ W.ContentBrowser.OnAssetSelectionChanged, D.Bound.IsForeign = true :=
    fun D hD => hOthers D (by simp [FContentBrowserModule.AllDelegates, hD])
  have o4 : ∀ D ∈ W.ContentBrowser.OnAssetPathChanged, D.Bound.IsForeign = true := fun D hD =>
    hOthers D (by simp [FContentBrowserModule.AllDelegates, hD])
  clear hOthers
  rcases W with ⟨⟨P, S, h1, h2, h3, h4, h5⟩, g, ⟨l1, l2, l3, l4, l5⟩, mf, tr⟩
  simp only [] at o1 o2 o3 o4
  unfold StartupModule_Bind at hB
  simp only [hV, Bool.not_false, if_true, World.Emit, World.RegisterModularFeature] at hB
  simp only [World.AddLambda_OnFilterChanged] at hB
  simp only [World.AddLambda_OnSearchBoxChanged] at hB
  simp only [World.AddLambda_OnAssetSelectionChanged] at hB
  simp only [World.AddLambda_OnAssetPathChanged] at hB
  simp only [NewDelegate, FDelegateInstance.GetHandle] at hB
  generalize GenerateNewID g = g1 at *
  generalize GenerateNewID g1 = g2 at *
  generalize GenerateNewID g2 = g3 at *
  generalize GenerateNewID g3 = g4 at *
  unfold World.Add_OnExtendAssetSelectionMenu at hB
  simp only [TArrayLast, List.getLast?_append, List.getLast?_singleton, Option.or_some] at hB
  simp only [Outcome.Returned.injEq, NewDelegate, FDelegateInstance.GetHandle] at hB
  subst hB
  intro E
  cases E with
  | FilterChanged Filter b => exact ⟨l1, ⟨g1⟩, rfl, o1⟩
  | SearchBoxChanged InSearchText b => exact ⟨l2, ⟨g2⟩, rfl, o2⟩
  | AssetSelectionChanged NewSelectedAssets b => exact ⟨l3, ⟨g3⟩, rfl, o3⟩
  | AssetPathChanged NewPath => exact ⟨l4, ⟨g4⟩, rfl, o4⟩

theorem StartupModule_HandlersInstalled (env : Env) (W : World)
    (hV : UE_VERSION_OLDER_THAN env.EngineVersion 5 0 0 = false)
    (hRun : (FGitSourceControlModule.StartupModule env W).bAborted = false)
    (hOthers : DelegatesOfOthers W) :
    HandlersInstalled (FGitSourceControlModule.StartupModule env W).World.ContentBrowser := by
  obtain ⟨-, hC1, -, -⟩ := StartupModule_Register_frame W
  obtain ⟨-, -, hC2, -⟩ := StartupModule_CheckAccess_frame env (StartupModule_Register W)
  rw [StartupModule_eq_stages] at hRun ⊢
  cases hO : StartupModule_CheckAccess env (StartupModule_Register W) with
  | Aborted WA =>
    rw [hO] at hRun
    simp [Outcome.bAborted] at hRun
  | Returned W1 =>
    rw [hO] at hC2
    simp only [Outcome.World] at hC2
    obtain ⟨W2, hB, -⟩ := StartupModule_Bind_returned env W1
    have hOthers1 : DelegatesOfOthers W1 := by
      unfold DelegatesOfOthers at hOthers ⊢
      rw [hC2, hC1]
      exact hOthers
    simp only [hB, Outcome.World]
    exact StartupModule_Bind_HandlersInstalled env W1 W2 hV hOthers1 hB

/-- C11: the four lambdas `StartupModule` binds to the content-browser delegates assign
`TicksUntilNextForcedUpdate` whatever its previous value and whatever the event's arguments: the
filter-changed and asset-path-changed lambdas set it to 2, the search-box-changed and
asset-selection-changed lambdas set it to 1, so after a non-empty sequence of such events the
value is that of the last event, which is 1 or 2.  The lambdas are the ones the events reach:
after a `StartupModule` that was not terminated, on an engine not older than 5.0 and with the
delegates already in the host lists bound by other parties, broadcasting a non-empty sequence of
the four events leaves the provider's value at that of the last event. -/
theorem ContentBrowser_handlers_set_TicksUntilNextForcedUpdate (env : Env) (W : World) :
    (∀ (P : FGitSourceControlProvider) (Args : FContentBrowserEvent),
        (ECallable.OnFilterChangedLambda.Invoke Args P).TicksUntilNextForcedUpdate = 2 ∧
          (ECallable.OnSearchBoxChangedLambda.Invoke Args P).TicksUntilNextForcedUpdate = 1 ∧
          (ECallable.OnAssetSelectionChangedLambda.Invoke Args P).TicksUntilNextForcedUpdate = 1 ∧
          (ECallable.OnAssetPathChangedLambda.Invoke Args P).TicksUntilNextForcedUpdate = 2) ∧
      (∀ (P : FGitSourceControlProvider) (Events : List FContentBrowserEvent)
          (Last : FContentBrowserEvent),
        ((Events ++ [Last]).foldl (fun Q E => E.Lambda.Invoke E Q)
            P).TicksUntilNextForcedUpdate = Last.ForcedUpdateTicks ∧
          (Last.ForcedUpdateTicks = 1 ∨ Last.ForcedUpdateTicks = 2)) ∧
      (UE_VERSION_OLDER_THAN env.EngineVersion 5 0 0 = false →
        (FGitSourceControlModule.StartupModule env W).bAborted = false →
        DelegatesOfOthers W →
        ∀ (Events : List FContentBrowserEvent) (Last : FContentBrowserEvent),
          ((Events ++ [Last]).foldl World.Broadcast
              (FGitSourceControlModule.StartupModule env
                W).World).Module.GitSourceControlProvider.TicksUntilNextForcedUpdate =
            Last.ForcedUpdateTicks) := by
  refine ⟨fun P Args => ⟨rfl, rfl, rfl, rfl⟩, ?_, ?_⟩
  · intro P Events Last
    constructor
    · rw [List.foldl_append, List.foldl_cons, List.foldl_nil]
      exact Lambda_Invoke_Ticks Last Last _
    · cases Last <;> simp [FContentBrowserEvent.ForcedUpdateTicks]
  · intro hV hRun hOthers Events Last
    have hInstalled := StartupModule_HandlersInstalled env W hV hRun hOthers
    rw [List.foldl_append, List.foldl_cons, List.foldl_nil]
    refine (Broadcast_of_HandlersInstalled _ Last ?_).1
    rw [foldl_Broadcast_ContentBrowser]
    exact hInstalled

/-- Witness for C11: after startup in an editor (UE 5.3) that already holds delegates of other
parties, a filter change, a search and then a path change leave the value at 2. -/
theorem ContentBrowser_handlers_set_TicksUntilNextForcedUpdate_witness :
    (([FContentBrowserEvent.FilterChanged ⟨1⟩ true,
          FContentBrowserEvent.SearchBoxChanged ⟨"tree"⟩ true] ++
        [FContentBrowserEvent.AssetPathChanged "/Game/Maps"]).foldl World.Broadcast
        (FGitSourceControlModule.StartupModule (SampleEnv none ⟨true, 0, ""⟩)
          SampleWorld).World).Module.GitSourceControlProvider.TicksUntilNextForcedUpdate = 2 :=
  (ContentBrowser_handlers_set_TicksUntilNextForcedUpdate (SampleEnv none ⟨true, 0, ""⟩)
    SampleWorld).2.2 (by decide) (by decide) (by unfold DelegatesOfOthers; decide)
    [FContentBrowserEvent.FilterChanged ⟨1⟩ true,
      FContentBrowserEvent.SearchBoxChanged ⟨"tree"⟩ true]
    (FContentBrowserEvent.AssetPathChanged "/Game/Maps")

end UEGitPlugin
